import Mathlib

/-!
Shallow embedding of the routing and topology engine of the `netmap`
application (`src/netmap/services.py`, backed by the data model of
`src/netmap/models.py`).

The Python code manipulates IPv4 addresses through the standard
`ipaddress` module.  The embedding models the fragment of that module the
services actually use: parsing of dotted-quad addresses and `A.B.C.D/N`
CIDRs (`strict=False`, so host bits are masked away), membership,
`overlaps`, `subnet_of` / `supernet_of`, network equality, and
construction of an address from an integer (which yields an IPv6 address
when the integer exceeds `0xFFFFFFFF`).  The spec declares IPv6 and
netmask-style prefixes out of scope, so parsing accepts exactly the
dotted-quad / decimal-prefix forms; all other strings fail to parse, as
they do in Python for this input space.

The Django ORM is modelled as a `Store` of lists in stable insertion
order; `filter` preserves that order, matching the spec's determinism
requirement (spec section 4.4.5).
-/

namespace Netmap

/-- Split a list of characters on a separator, like Python `str.split`. -/
def splitOnChar (sep : Char) : List Char → List (List Char)
  | [] => [[]]
  | c :: cs =>
    let r := splitOnChar sep cs
    if c = sep then [] :: r
    else
      match r with
      | [] => [[c]]
      | h :: t => (c :: h) :: t

/-- Value of a list of decimal digit characters, most significant first. -/
def digitsVal (l : List Char) : Nat :=
  l.foldl (fun a c => a * 10 + (c.toNat - ('0').toNat)) 0

/-- Parse one octet of a dotted-quad address the way Python's
`ipaddress._parse_octet` does: one to three decimal digits, no leading
zero (except `"0"` itself), value at most 255. -/
def parseOctet (l : List Char) : Option Nat :=
  if l ≠ [] ∧ l.length ≤ 3 ∧ l.all Char.isDigit ∧ (l.head? = some '0' → l.length = 1) then
    let v := digitsVal l
    if v ≤ 255 then some v else none
  else none

/-- Parse a dotted-quad IPv4 address into its 32-bit value, like
`ipaddress.ip_address` on a v4 string. -/
def parseIPv4 (l : List Char) : Option Nat :=
  match splitOnChar '.' l with
  | [a, b, c, d] => do
    let a ← parseOctet a
    let b ← parseOctet b
    let c ← parseOctet c
    let d ← parseOctet d
    pure (a * 16777216 + b * 65536 + c * 256 + d)
  | _ => none

/-- Parse a decimal prefix length (Python allows redundant leading zeros
here), rejecting values above 32. -/
def parsePrefixLen (l : List Char) : Option Nat :=
  if l ≠ [] ∧ l.all Char.isDigit ∧ digitsVal l ≤ 32 then some (digitsVal l) else none

/-- An IPv4 network: masked base address and prefix length, the state of
a Python `IPv4Network`. -/
structure Net where
  base : Nat
  plen : Nat
  deriving DecidableEq

/-- Mask an address down to its network base for a given prefix length:
clear the low `32 - p` bits. -/
def maskBase (a p : Nat) : Nat := a / 2 ^ (32 - p) * 2 ^ (32 - p)

/-- Broadcast (highest) address of a network. -/
def Net.broadcast (n : Net) : Nat := n.base + (2 ^ (32 - n.plen) - 1)

/-- Parse an IP-or-CIDR string as `ipaddress.ip_network(s, strict=False)`
does: no slash means a `/32` host network; with a slash the host bits of
the written address are masked away. -/
def parseNet (l : List Char) : Option Net :=
  match splitOnChar '/' l with
  | [a] => (parseIPv4 a).map (fun v => ⟨v, 32⟩)
  | [a, pl] => do
    let v ← parseIPv4 a
    let p ← parsePrefixLen pl
    pure ⟨maskBase v p, p⟩
  | _ => none

/-- String-level IPv4 parse. -/
def parseIP (s : String) : Option Nat := parseIPv4 s.toList

/-- String-level network parse (`strict=False`). -/
def parseCIDR (s : String) : Option Net := parseNet s.toList

/-- The `'/' in s` test the services use to distinguish an IP from a CIDR. -/
def hasSlash (s : String) : Bool := s.toList.contains '/'

/-- Python `ip in network`: `network_address <= ip <= broadcast_address`. -/
def Net.containsIP (n : Net) (ip : Nat) : Bool :=
  n.base ≤ ip ∧ ip ≤ n.broadcast

/-- Python `IPv4Network.overlaps`: either network holds an endpoint of
the other. -/
def Net.overlapsNet (a b : Net) : Bool :=
  b.containsIP a.base || b.containsIP a.broadcast || a.containsIP b.base || a.containsIP b.broadcast

/-- Python `IPv4Network.subnet_of`: interval containment, non-strict. -/
def Net.subnetOf (a b : Net) : Bool :=
  b.base ≤ a.base ∧ a.broadcast ≤ b.broadcast

/-- Python `IPv4Network.supernet_of`: `b.subnet_of a`. -/
def Net.supernetOf (a b : Net) : Bool := b.subnetOf a

/-- Render a 32-bit value as a dotted-quad string, like Python
`str(IPv4Address)`. -/
def renderIPv4 (v : Nat) : String :=
  let a := v / 16777216 % 256
  let b := v / 65536 % 256
  let c := v / 256 % 256
  let d := v % 256
  s!"{a}.{b}.{c}.{d}"

/-- Render the string form of `ipaddress.ip_address(v)` for a
non-negative integer `v`: a dotted quad when `v` fits in 32 bits, an
IPv6 address otherwise.  The exact compressed-hex IPv6 text is
irrelevant to every observable behavior in the services (such a string
has no slash and is not a parseable IPv4 address, so it never matches a
v4 route, exactly as a Python `IPv6Address` is never contained in an
`IPv4Network`); a value-preserving placeholder keeps the embedding
honest without replicating RFC 5952 formatting. -/
def renderAddr (v : Nat) : String :=
  if v < 4294967296 then renderIPv4 v else "ipv6-" ++ toString v

/-! ## Data model (`src/netmap/models.py`)

Entities carry exactly the fields the services read.  Primary keys are
natural numbers; foreign keys are stored as ids, and names are resolved
through the store the way Django resolves `interface.device.name`. -/

/-- `Device` row. -/
structure Device where
  id : Nat
  name : String
  deriving DecidableEq

/-- `Interface` row. -/
structure Interface where
  id : Nat
  deviceId : Nat
  name : String
  ip_address : String
  network : String
  status : String
  deriving DecidableEq

/-- `Route` row (`type` is a reserved word, stored as `rtype`). -/
structure Route where
  sourceDeviceId : Nat
  destination_network : String
  gateway_ip : Option String
  rtype : String
  metric : Nat
  deriving DecidableEq

/-- `NATMapping` row. -/
structure NATMapping where
  id : Nat
  deviceId : Nat
  logical_ip_or_network : String
  real_ip_or_network : String
  ntype : String
  deriving DecidableEq

/-- The entity store: lists in stable insertion (primary-key) order, the
ordering the spec requires of the backing store (section 4.4.5). -/
structure Store where
  devices : List Device
  interfaces : List Interface
  routes : List Route
  nats : List NATMapping
  deriving DecidableEq

/-- Resolve a device name from its id (`interface.device.name` through
the foreign key; the referent always exists under FK integrity). -/
def Store.deviceName (s : Store) (id : Nat) : String :=
  ((s.devices.find? (fun d => d.id = id)).map Device.name).getD ""

/-- `Interface.objects.filter(status='up')` in iteration order. -/
def Store.upInterfaces (s : Store) : List Interface :=
  s.interfaces.filter (fun i => i.status = "up")

/-- Exceptions that escape a service call: Django `ValidationError`
with its message, or a model `DoesNotExist`. -/
inductive PyError where
  | validation (msg : String)
  | doesNotExist
  deriving DecidableEq

/-- Decidable equality on `Except`, so concrete service results can be
checked by `decide`. -/
instance exceptDecidableEq {ε α : Type} [DecidableEq ε] [DecidableEq α] :
    DecidableEq (Except ε α) := fun a b =>
  match a, b with
  | .error e, .error f =>
    if h : e = f then .isTrue (by rw [h]) else .isFalse (fun hc => by cases hc; exact h rfl)
  | .ok x, .ok y =>
    if h : x = y then .isTrue (by rw [h]) else .isFalse (fun hc => by cases hc; exact h rfl)
  | .error _, .ok _ => .isFalse (fun hc => by cases hc)
  | .ok _, .error _ => .isFalse (fun hc => by cases hc)

/-! ## `TopologyService.get_device_networks` (`services.py` lines 216-269) -/

/-- The interface summary dict the services emit
(`{'interface_id', 'name', 'ip_address'}`). -/
structure IfaceRef where
  interfaceId : Nat
  name : String
  ipAddress : String
  deriving DecidableEq

/-- Project an interface row to its summary dict. -/
def Interface.toRef (i : Interface) : IfaceRef :=
  ⟨i.id, i.name, i.ip_address⟩

/-- Add one interface to the `networks` dict of `get_device_networks`:
append to an existing key's list or append a fresh key at the end,
exactly the insertion-order semantics of a Python dict. -/
def addToGroups : List (String × List IfaceRef) → String → IfaceRef → List (String × List IfaceRef)
  | [], n, r => [(n, [r])]
  | (k, v) :: t, n, r =>
    if k = n then (k, v ++ [r]) :: t else (k, v) :: addToGroups t n r

/-- Group a list of interfaces by their `network` string, preserving
first-occurrence key order. -/
def groupByNetwork (l : List Interface) : List (String × List IfaceRef) :=
  l.foldl (fun gs i => addToGroups gs i.network i.toRef) []

/-- `TopologyService.get_device_networks`. -/
def getDeviceNetworks (s : Store) (deviceId : Nat) (includeStubNetworks : Bool) :
    Except PyError (List (String × List IfaceRef)) :=
  match s.devices.find? (fun d => d.id = deviceId) with
  | none => .error (.validation s!"Device with ID {deviceId} does not exist")
  | some _ =>
    let intfs := s.interfaces.filter (fun i => i.deviceId = deviceId ∧ i.status = "up")
    let networks := groupByNetwork intfs
    if includeStubNetworks then .ok networks
    else
      let others := s.interfaces.filter (fun i => i.status = "up" ∧ i.deviceId ≠ deviceId)
      .ok (networks.filter (fun g => others.any (fun j => j.network = g.1)))

/-! ## `RoutingService.find_matching_networks` (`services.py` lines 277-343) -/

/-- One entry of the `find_matching_networks` result. -/
structure MatchEntry where
  interfaceId : Nat
  device : String
  deviceId : Nat
  interfaceName : String
  ipAddress : String
  network : String
  relationship : String
  deriving DecidableEq

/-- Relationship annotation for a CIDR query. -/
def cidrRelationship (q inet : Net) : String :=
  if q = inet then "exact"
  else if q.supernetOf inet then "supernet"
  else if inet.supernetOf q then "subnet"
  else "overlap"

/-- `RoutingService.find_matching_networks`.  A malformed query raises
`ValidationError`; malformed interface networks are silently skipped. -/
def findMatchingNetworks (s : Store) (q : String) : Except PyError (List MatchEntry) :=
  if hasSlash q then
    match parseCIDR q with
    | none => .error (.validation "Invalid IP or network format")
    | some Q => .ok (s.upInterfaces.filterMap (fun i =>
        match parseCIDR i.network with
        | none => none
        | some inet =>
          if Q.overlapsNet inet then
            some ⟨i.id, s.deviceName i.deviceId, i.deviceId, i.name, i.ip_address, i.network,
                  cidrRelationship Q inet⟩
          else none))
  else
    match parseIP q with
    | none => .error (.validation "Invalid IP or network format")
    | some P => .ok (s.upInterfaces.filterMap (fun i =>
        match parseCIDR i.network with
        | none => none
        | some inet =>
          if inet.containsIP P then
            some ⟨i.id, s.deviceName i.deviceId, i.deviceId, i.name, i.ip_address, i.network,
                  if renderIPv4 P = i.ip_address then "exact_ip_match" else "contains_ip"⟩
          else none))

/-! ## `RoutingService.check_supernet_conflicts` (`services.py` lines 345-399) -/

/-- One conflict dict: either an interface conflict (with
`interface_name`) or a route conflict (with `route_type`). -/
structure Conflict where
  device : String
  interfaceName : Option String
  routeType : Option String
  network : String
  deriving DecidableEq

/-- `RoutingService.check_supernet_conflicts`.  A slash-less query short
circuits to `[]` before any parsing; an invalid CIDR raises. -/
def checkSupernetConflicts (s : Store) (q : String) : Except PyError (List Conflict) :=
  if ¬ hasSlash q then .ok []
  else
    match parseCIDR q with
    | none => .error (.validation "Invalid network format")
    | some Q => .ok (
        (s.upInterfaces.filterMap (fun i =>
          match parseCIDR i.network with
          | none => none
          | some inet =>
            if Q.supernetOf inet ∧ Q ≠ inet then
              some ⟨s.deviceName i.deviceId, some i.name, none, i.network⟩
            else none)) ++
        (s.routes.filterMap (fun r =>
          match parseCIDR r.destination_network with
          | none => none
          | some rnet =>
            if Q.supernetOf rnet ∧ Q ≠ rnet then
              some ⟨s.deviceName r.sourceDeviceId, none, some r.rtype, r.destination_network⟩
            else none)))

/-! ## `RoutingService.find_nat_mapping` (`services.py` lines 401-481) -/

/-- The NAT-lookup result dict.  `translated` holds the integer value of
`ipaddress.ip_address(int(real_base) + offset)`; the textual form is
`renderAddr` of it (an IPv6 string when the value exceeds 32 bits). -/
structure NatResult where
  natId : Nat
  device : String
  logical : String
  real : String
  ntype : String
  translated : Option Nat
  note : Option String
  deriving DecidableEq

/-- The literal address written before the slash of a CIDR string:
`nat.logical_ip_or_network.split('/')[0]` parsed with `ip_address`.
Unlike the `strict=False` network parse, this does **not** mask host
bits. -/
def literalBase (str : String) : Option Nat :=
  parseIPv4 ((splitOnChar '/' str.toList).headD [])

/-- Examine one NAT mapping against the query, returning `some` result
on a match and `none` both on a non-match and on any `ValueError`
(malformed row, or a translated value below zero), which the code
swallows with `continue`. -/
def natStep (s : Store) (q : String) (nat : NATMapping) : Option NatResult :=
  if hasSlash nat.logical_ip_or_network then
    match parseCIDR nat.logical_ip_or_network with
    | none => none
    | some L =>
      if hasSlash q then
        match parseCIDR q with
        | none => none
        | some Q =>
          if L.overlapsNet Q then
            some ⟨nat.id, s.deviceName nat.deviceId, nat.logical_ip_or_network,
                  nat.real_ip_or_network, nat.ntype, none, none⟩
          else none
      else
        match parseIP q with
        | none => none
        | some P =>
          if L.containsIP P then
            if ¬ hasSlash nat.real_ip_or_network then
              match literalBase nat.logical_ip_or_network, parseIP nat.real_ip_or_network with
              | some lb, some rb =>
                let translated : Int := (rb : Int) + ((P : Int) - (lb : Int))
                if 0 ≤ translated then
                  some ⟨nat.id, s.deviceName nat.deviceId, nat.logical_ip_or_network,
                        nat.real_ip_or_network, nat.ntype, some translated.toNat, none⟩
                else none
              | _, _ => none
            else
              some ⟨nat.id, s.deviceName nat.deviceId, nat.logical_ip_or_network,
                    nat.real_ip_or_network, nat.ntype, none,
                    some "Network to network translation - specific IP translation not calculated"⟩
          else none
  else
    match parseIP nat.logical_ip_or_network with
    | none => none
    | some lip =>
      if ¬ hasSlash q ∧ q = renderIPv4 lip then
        some ⟨nat.id, s.deviceName nat.deviceId, nat.logical_ip_or_network,
              nat.real_ip_or_network, nat.ntype, none, none⟩
      else none

/-- First matching NAT mapping in iteration order. -/
def findNatMappingAux (s : Store) (q : String) : List NATMapping → Option NatResult
  | [] => none
  | nat :: rest =>
    match natStep s q nat with
    | some r => some r
    | none => findNatMappingAux s q rest

/-- `RoutingService.find_nat_mapping`. -/
def findNatMapping (s : Store) (deviceId : Nat) (q : String) (ntype : String) : Option NatResult :=
  findNatMappingAux s q (s.nats.filter (fun n => n.deviceId = deviceId ∧ n.ntype = ntype))

/-! ## `RoutingService.find_route_path` (`services.py` lines 483-724) -/

/-- The route summary stored in a hop
(`{'network', 'gateway', 'type'}`). -/
structure RouteRef where
  network : String
  gateway : Option String
  rtype : String
  deriving DecidableEq

/-- One entry of `result['path']`.  Dict keys that a branch leaves out
are `none`. -/
structure Hop where
  device : String
  deviceId : Nat
  ingress : Option IfaceRef
  egress : Option IfaceRef
  route : Option RouteRef
  nextHop : Option String
  note : Option String
  nextHopIngress : Option IfaceRef
  deriving DecidableEq

/-- The result dict of `find_route_path`.  Error-branch dicts simply
leave the unmentioned fields at their defaults (`path = []`,
`conflicts = none`, NAT flags `false`). -/
structure RouteResult where
  status : String
  message : Option String
  source : String
  destination : String
  path : List Hop
  natSource : Bool
  natDest : Bool
  natSourceDetails : Option NatResult
  natDestDetails : Option NatResult
  conflicts : Option (List Conflict)
  deriving DecidableEq

/-- Whether a route matches the working destination, returning the
route network's prefix length on a match (`services.py` lines 600-621).
Any `ValueError` while parsing skips the route. -/
def routeMatches (workingDst : String) (r : Route) : Option Nat :=
  match parseCIDR r.destination_network with
  | none => none
  | some rnet =>
    if hasSlash workingDst then
      match parseCIDR workingDst with
      | none => none
      | some dn => if rnet.overlapsNet dn then some rnet.plen else none
    else
      match parseIP workingDst with
      | none => none
      | some dip => if rnet.containsIP dip then some rnet.plen else none

/-- Fold of the best-route loop: keep the first route whose prefix
length strictly beats the best so far (`best_prefix_len` starts at -1,
so the first match always wins; `if prefix_len > best_prefix_len`). -/
def bestRouteAux (workingDst : String) : List Route → Option (Route × Nat) → Option (Route × Nat)
  | [], acc => acc
  | r :: rest, acc =>
    match routeMatches workingDst r with
    | none => bestRouteAux workingDst rest acc
    | some pl =>
      match acc with
      | none => bestRouteAux workingDst rest (some (r, pl))
      | some (b, bl) =>
        if bl < pl then bestRouteAux workingDst rest (some (r, pl))
        else bestRouteAux workingDst rest (some (b, bl))

/-- Longest-prefix route selection on one device's routes. -/
def findBestRoute (workingDst : String) (routes : List Route) : Option Route :=
  (bestRouteAux workingDst routes none).map Prod.fst

/-- First up-interface carrying the gateway IP
(`Interface.objects.filter(ip_address=gw, status='up')`, first row). -/
def findNextHop (s : Store) (gw : String) : Option Interface :=
  (s.interfaces.filter (fun i => i.ip_address = gw ∧ i.status = "up")).head?

/-- First up-interface on the current device whose network contains the
gateway IP (`services.py` lines 652-667); parse failures skip the row. -/
def findEgress (s : Store) (devId : Nat) (gw : String) : Option IfaceRef :=
  (s.interfaces.filter (fun i => i.deviceId = devId ∧ i.status = "up")).findSome? (fun i =>
    match parseCIDR i.network, parseIP gw with
    | some inet, some gip => if inet.containsIP gip then some i.toRef else none
    | _, _ => none)

/-- Write `next_hop_ingress` into the last emitted hop
(`result['path'][-1]['next_hop_ingress'] = ingress_interface`). -/
def attachIngress : List Hop → IfaceRef → List Hop
  | [], _ => []
  | [h], ing => [{ h with nextHopIngress := some ing }]
  | h :: t, ing => h :: attachIngress t ing

/-- Termination phase of `find_route_path` (`services.py` lines
703-724): destination reached, routing loop detected, or the result
passed through unchanged. -/
def finishLoop (s : Store) (destDevId curr : Nat) (visited : List Nat) (res : RouteResult) :
    Except PyError RouteResult :=
  if curr = destDevId then
    match s.devices.find? (fun d => d.id = curr) with
    | none => .error .doesNotExist
    | some finalDev =>
      let ingress := (res.path.getLast?).bind Hop.nextHopIngress
      .ok { res with
              status := "success"
              path := res.path ++
                [⟨finalDev.name, curr, ingress, none, none, none, some "Destination reached", none⟩] }
  else if curr ∈ visited then
    .ok { res with status := "error", message := some "Routing loop detected" }
  else .ok res

/-- The hop-by-hop simulation loop (`services.py` lines 583-701), as a
fuel-indexed recursion.  The three in-loop error returns (device not
found at lines 590-594, no route at 623-628, no next hop at 644-649)
are fresh dicts carrying only `status`, `message` and the partial
`path`: `nat_applied`, the source/destination echoes and the NAT
details are absent, i.e. left at their defaults.  Zero fuel yields a
marker no real branch produces; `hopLoop_enough_fuel` and
`hopLoop_initial_budget_stable` below show the budget the top-level
call supplies lies in the stable region — the result is unchanged by
any additional fuel, because every full iteration adds an unvisited
interface-owning device to `visited`. -/
def hopLoop (s : Store) (destDevId : Nat) :
    Nat → Nat → List Nat → String → RouteResult → Except PyError RouteResult
  | 0, _, _, _, res => .ok { res with status := "error", message := some "Fuel exhausted" }
  | fuel + 1, curr, visited, wdst, res =>
    if curr = destDevId ∨ curr ∈ visited then
      finishLoop s destDevId curr visited res
    else
      let visited' := curr :: visited
      match s.devices.find? (fun d => d.id = curr) with
      | none => .ok ⟨"error", some s!"Device with ID {curr} not found", "", "", res.path,
                     false, false, none, none, none⟩
      | some currDev =>
        match findBestRoute wdst (s.routes.filter (fun r => r.sourceDeviceId = curr)) with
        | none => .ok ⟨"error",
                       some ("No route found on device " ++ currDev.name ++ " for " ++ wdst),
                       "", "", res.path, false, false, none, none, none⟩
        | some best =>
          let nextHop : Option Interface :=
            match best.gateway_ip with
            | none => none
            | some gw => findNextHop s gw
          if nextHop = none ∧ best.rtype ≠ "connected" then
            .ok ⟨"error",
                 some ("No next hop found for route " ++ best.destination_network ++
                       " on device " ++ currDev.name),
                 "", "", res.path, false, false, none, none, none⟩
          else
            let egress := match best.gateway_ip with
              | none => none
              | some gw => findEgress s curr gw
            let hop : Hop := ⟨currDev.name, curr, none, egress,
              some ⟨best.destination_network, best.gateway_ip, best.rtype⟩,
              some (match nextHop with
                    | some i => s.deviceName i.deviceId
                    | none => "Directly Connected"),
              none, none⟩
            let path' := res.path ++ [hop]
            match nextHop with
            | none => finishLoop s destDevId curr visited' { res with path := path' }
            | some nh =>
              let path'' :=
                if nh.deviceId ≠ destDevId then attachIngress path' nh.toRef else path'
              hopLoop s destDevId fuel nh.deviceId visited' wdst { res with path := path'' }

/-- `RoutingService.find_route_path`.  The fuel budget
`s.interfaces.length + 2` dominates the loop's iteration count: every
device entered after the first is the owner of some interface row and is
never revisited. -/
def findRoutePath (s : Store) (src dst : String) : Except PyError RouteResult :=
  let base0 : RouteResult :=
    ⟨"success", none, src, dst, [], false, false, none, none, none⟩
  match checkSupernetConflicts s src with
  | .error e => .error e
  | .ok srcConflicts =>
    if srcConflicts ≠ [] then
      .ok { base0 with
              status := "error"
              message := some ("Source " ++ src ++ " conflicts with more specific networks")
              conflicts := some srcConflicts }
    else
      match checkSupernetConflicts s dst with
      | .error e => .error e
      | .ok dstConflicts =>
        if dstConflicts ≠ [] then
          .ok { base0 with
                  status := "error"
                  message := some ("Destination " ++ dst ++ " conflicts with more specific networks")
                  conflicts := some dstConflicts }
        else
          match findMatchingNetworks s src with
          | .error e => .error e
          | .ok [] =>
            .ok { base0 with
                    status := "error"
                    message := some ("Source " ++ src ++ " not found in any known network") }
          | .ok (srcNet :: _) =>
            match findMatchingNetworks s dst with
            | .error e => .error e
            | .ok [] =>
              .ok { base0 with
                      status := "error"
                      message := some ("Destination " ++ dst ++ " not found in any known network") }
            | .ok (dstNet :: _) =>
              if srcNet.deviceId = dstNet.deviceId then
                .ok { base0 with path :=
                  [⟨srcNet.device, srcNet.deviceId, none, none, none, none,
                    some "Source and destination are on the same device", none⟩] }
              else
                let srcNat := findNatMapping s srcNet.deviceId src "source"
                let base1 := match srcNat with
                  | some n => { base0 with natSource := true, natSourceDetails := some n }
                  | none => base0
                let dstNat := findNatMapping s dstNet.deviceId dst "destination"
                let base2 := match dstNat with
                  | some n => { base1 with natDest := true, natDestDetails := some n }
                  | none => base1
                let wdst := match dstNat with
                  | some n =>
                    match n.translated with
                    | some v => renderAddr v
                    | none => n.real
                  | none => dst
                hopLoop s dstNet.deviceId (s.interfaces.length + 2) srcNet.deviceId [] wdst base2

/-! ## Derived notions and concrete stores used by the theorems -/

/-- A malformed IP-or-CIDR string, following the code's dispatch: a
string with a slash that is not a valid CIDR, or one without a slash
that is not a valid IPv4 address. -/
def malformed (q : String) : Bool :=
  if hasSlash q then (parseCIDR q).isNone else (parseIP q).isNone

/-- Whether a service call raised a `ValidationError`. -/
def isValidationErr : Except PyError RouteResult → Bool
  | .error (.validation _) => true
  | _ => false

/-- Well-formedness of a network value as produced by `parseNet`: the
prefix length fits, the base is aligned to the block size, and the
block lies inside the 32-bit space. -/
def Net.WF (n : Net) : Prop :=
  n.plen ≤ 32 ∧ n.base % 2 ^ (32 - n.plen) = 0 ∧ n.base + 2 ^ (32 - n.plen) ≤ 2 ^ 32

/-- Two routers joined by nothing: `r1` owns `10.0.0.0/24`, `r2` owns
`172.16.0.0/24`, and `r1` carries a *connected* route for `r2`'s
network.  The destination network is directly connected on `r1`, but
the destination address's only matching interface is on `r2`. -/
def exampleLoopStore : Store :=
  ⟨[⟨1, "r1"⟩, ⟨2, "r2"⟩],
   [⟨1, 1, "eth0", "10.0.0.1", "10.0.0.0/24", "up"⟩,
    ⟨2, 2, "eth0", "172.16.0.1", "172.16.0.0/24", "up"⟩],
   [⟨1, "172.16.0.0/24", none, "connected", 0⟩],
   []⟩

/-- Two routers on a shared `10.0.0.0/24` segment; `r2` also owns
`172.16.0.0/24`, and `r1` has a static route to it via `10.0.0.2`. -/
def exampleTwoHopStore : Store :=
  ⟨[⟨1, "r1"⟩, ⟨2, "r2"⟩],
   [⟨1, 1, "eth0", "10.0.0.1", "10.0.0.0/24", "up"⟩,
    ⟨2, 2, "eth0", "10.0.0.2", "10.0.0.0/24", "up"⟩,
    ⟨3, 2, "eth1", "172.16.0.1", "172.16.0.0/24", "up"⟩],
   [⟨1, "172.16.0.0/24", some "10.0.0.2", "static", 0⟩],
   []⟩

/-- A single device with a source-NAT mapping whose translation
overflows 32 bits: logical `255.255.255.0/24`, real `255.255.255.100`;
querying `255.255.255.200` asks for `255.255.255.100 + 200`. -/
def exampleNatOverflowStore : Store :=
  ⟨[⟨1, "d"⟩], [], [],
   [⟨1, 1, "255.255.255.0/24", "255.255.255.100", "source"⟩]⟩

/-- The two-hop topology extended with a destination-NAT mapping on
`r2` translating the public `200.1.1.1` to the internal
`172.16.0.10`, plus an interface carrying the public address. -/
def exampleNatPathStore : Store :=
  ⟨[⟨1, "r1"⟩, ⟨2, "r2"⟩],
   [⟨1, 1, "eth0", "10.0.0.1", "10.0.0.0/24", "up"⟩,
    ⟨2, 2, "eth0", "10.0.0.2", "10.0.0.0/24", "up"⟩,
    ⟨3, 2, "eth1", "172.16.0.1", "172.16.0.0/24", "up"⟩,
    ⟨4, 2, "eth2", "200.1.1.1", "200.1.1.0/24", "up"⟩],
   [⟨1, "172.16.0.0/24", some "10.0.0.2", "static", 0⟩],
   [⟨1, 2, "200.1.1.1", "172.16.0.10", "destination"⟩]⟩

/-- An empty store. -/
def emptyStore : Store := ⟨[], [], [], []⟩

/-- A coarse and a specific route to the same space, the coarse one
with the better (lower) metric. -/
def exampleRouteCoarse : Route := ⟨1, "10.0.0.0/8", none, "static", 1⟩

/-- The specific route; see `exampleRouteCoarse`. -/
def exampleRouteSpecific : Route := ⟨1, "10.0.0.0/24", none, "static", 9⟩

/-! ## Lemmas about route selection -/

/-- Whether a route matches depends only on its destination network,
never on its metric. -/
lemma routeMatches_metric (w : String) (r : Route) (m : Nat) :
    routeMatches w { r with metric := m } = routeMatches w r := rfl

/-- Everything the best-route fold returns dominates both the incoming
accumulator and every matching route of the scanned list. -/
lemma bestRouteAux_bound (w : String) (l : List Route) :
    ∀ (acc : Option (Route × Nat)) (r : Route) (pl : Nat),
    bestRouteAux w l acc = some (r, pl) →
    (∀ b, acc = some b → b.2 ≤ pl) ∧
    (∀ r' ∈ l, ∀ pl', routeMatches w r' = some pl' → pl' ≤ pl) := by
  induction l with
  | nil =>
    intro acc r pl h
    simp only [bestRouteAux] at h
    subst h
    refine ⟨?_, by simp⟩
    intro b hb
    injection hb with hb
    subst hb
    exact le_rfl
  | cons r0 rest ih =>
    intro acc r pl h
    cases hm : routeMatches w r0 with
    | none =>
      simp only [bestRouteAux, hm] at h
      obtain ⟨h1, h2⟩ := ih _ _ _ h
      refine ⟨h1, ?_⟩
      intro r' hr' pl' hpl'
      rcases List.mem_cons.mp hr' with rfl | hmem
      · rw [hm] at hpl'; cases hpl'
      · exact h2 _ hmem _ hpl'
    | some pl0 =>
      cases acc with
      | none =>
        simp only [bestRouteAux, hm] at h
        obtain ⟨h1, h2⟩ := ih _ _ _ h
        have hpl0 : pl0 ≤ pl := h1 _ rfl
        refine ⟨by simp, ?_⟩
        intro r' hr' pl' hpl'
        rcases List.mem_cons.mp hr' with rfl | hmem
        · rw [hm] at hpl'; injection hpl' with e; omega
        · exact h2 _ hmem _ hpl'
      | some b0 =>
        obtain ⟨b, bl⟩ := b0
        simp only [bestRouteAux, hm] at h
        by_cases hlt : bl < pl0
        · rw [if_pos hlt] at h
          obtain ⟨h1, h2⟩ := ih _ _ _ h
          have hpl0 : pl0 ≤ pl := h1 _ rfl
          refine ⟨?_, ?_⟩
          · intro b' hb'
            injection hb' with hb'
            subst hb'
            simp only
            omega
          · intro r' hr' pl' hpl'
            rcases List.mem_cons.mp hr' with rfl | hmem
            · rw [hm] at hpl'; injection hpl' with e; omega
            · exact h2 _ hmem _ hpl'
        · rw [if_neg hlt] at h
          obtain ⟨h1, h2⟩ := ih _ _ _ h
          have hbl : bl ≤ pl := h1 _ rfl
          refine ⟨?_, ?_⟩
          · intro b' hb'
            injection hb' with hb'
            subst hb'
            exact hbl
          · intro r' hr' pl' hpl'
            rcases List.mem_cons.mp hr' with rfl | hmem
            · rw [hm] at hpl'; injection hpl' with e; omega
            · exact h2 _ hmem _ hpl'

/-- The best-route fold answers either with the accumulator it was
given or with the first matching route of maximal prefix length, every
strictly earlier match being strictly shorter. -/
lemma bestRouteAux_first (w : String) (l : List Route) :
    ∀ (acc : Option (Route × Nat)) (r : Route) (pl : Nat),
    bestRouteAux w l acc = some (r, pl) →
    acc = some (r, pl) ∨
    (∃ pre post, l = pre ++ r :: post ∧ routeMatches w r = some pl ∧
      (∀ b, acc = some b → b.2 < pl) ∧
      (∀ r' ∈ pre, ∀ pl', routeMatches w r' = some pl' → pl' < pl)) := by
  induction l with
  | nil =>
    intro acc r pl h
    simp only [bestRouteAux] at h
    exact Or.inl h
  | cons r0 rest ih =>
    intro acc r pl h
    cases hm : routeMatches w r0 with
    | none =>
      simp only [bestRouteAux, hm] at h
      rcases ih _ _ _ h with hl | ⟨pre, post, hsplit, hrm, hacc, hpre⟩
      · exact Or.inl hl
      · refine Or.inr ⟨r0 :: pre, post, by simp [hsplit], hrm, hacc, ?_⟩
        intro r' hr' pl' hpl'
        rcases List.mem_cons.mp hr' with rfl | hmem
        · rw [hm] at hpl'; cases hpl'
        · exact hpre _ hmem _ hpl'
    | some pl0 =>
      cases acc with
      | none =>
        simp only [bestRouteAux, hm] at h
        rcases ih _ _ _ h with hl | ⟨pre, post, hsplit, hrm, hacc, hpre⟩
        · injection hl with hl
          injection hl with h1 h2
          subst h1
          subst h2
          exact Or.inr ⟨[], rest, rfl, hm, by simp, by simp⟩
        · have hlt : pl0 < pl := by
            have := hacc _ rfl
            simpa using this
          refine Or.inr ⟨r0 :: pre, post, by simp [hsplit], hrm, by simp, ?_⟩
          intro r' hr' pl' hpl'
          rcases List.mem_cons.mp hr' with rfl | hmem
          · rw [hm] at hpl'; injection hpl' with e; omega
          · exact hpre _ hmem _ hpl'
      | some b0 =>
        obtain ⟨b, bl⟩ := b0
        simp only [bestRouteAux, hm] at h
        by_cases hlt : bl < pl0
        · rw [if_pos hlt] at h
          rcases ih _ _ _ h with hl | ⟨pre, post, hsplit, hrm, hacc, hpre⟩
          · injection hl with hl
            injection hl with h1 h2
            subst h1
            subst h2
            refine Or.inr ⟨[], rest, rfl, hm, ?_, by simp⟩
            intro b' hb'
            injection hb' with hb'
            subst hb'
            exact hlt
          · have hplt : pl0 < pl := by
              have := hacc _ rfl
              simpa using this
            refine Or.inr ⟨r0 :: pre, post, by simp [hsplit], hrm, ?_, ?_⟩
            · intro b' hb'
              injection hb' with hb'
              subst hb'
              simp only
              omega
            · intro r' hr' pl' hpl'
              rcases List.mem_cons.mp hr' with rfl | hmem
              · rw [hm] at hpl'; injection hpl' with e; omega
              · exact hpre _ hmem _ hpl'
        · rw [if_neg hlt] at h
          rcases ih _ _ _ h with hl | ⟨pre, post, hsplit, hrm, hacc, hpre⟩
          · exact Or.inl hl
          · have hblt : bl < pl := by
              have := hacc _ rfl
              simpa using this
            refine Or.inr ⟨r0 :: pre, post, by simp [hsplit], hrm, ?_, ?_⟩
            · intro b' hb'
              injection hb' with hb'
              subst hb'
              exact hblt
            · intro r' hr' pl' hpl'
              rcases List.mem_cons.mp hr' with rfl | hmem
              · rw [hm] at hpl'; injection hpl' with e; omega
              · exact hpre _ hmem _ hpl'

/-- Route selection commutes with an arbitrary reassignment of every
metric: the metric field is never consulted. -/
lemma bestRouteAux_metric (w : String) (f : Route → Nat) (l : List Route) :
    ∀ acc : Option (Route × Nat),
    bestRouteAux w (l.map fun x => { x with metric := f x })
        (acc.map fun b => ({ b.1 with metric := f b.1 }, b.2)) =
      (bestRouteAux w l acc).map fun b => ({ b.1 with metric := f b.1 }, b.2) := by
  induction l with
  | nil => intro acc; simp [bestRouteAux]
  | cons r0 rest ih =>
    intro acc
    cases hm : routeMatches w r0 with
    | none =>
      simp only [List.map_cons, bestRouteAux, routeMatches_metric, hm]
      exact ih acc
    | some pl0 =>
      cases acc with
      | none =>
        simp only [List.map_cons, bestRouteAux, routeMatches_metric, hm, Option.map_none']
        exact ih (some (r0, pl0))
      | some b0 =>
        obtain ⟨b, bl⟩ := b0
        simp only [List.map_cons, bestRouteAux, routeMatches_metric, hm, Option.map_some']
        by_cases hlt : bl < pl0
        · rw [if_pos hlt, if_pos hlt]
          exact ih (some (r0, pl0))
        · rw [if_neg hlt, if_neg hlt]
          exact ih (some (b, bl))

/-- C4: at every hop `find_route_path` selects, via `findBestRoute`, a
route that matches the working destination (overlap for a CIDR,
containment for an IP, as `routeMatches` encodes), whose prefix length
is maximal among all matching routes of the device, with ties resolved
to the first route in iteration order; and the selection commutes with
any reassignment of the metrics, so the metric is never consulted. -/
theorem C4_route_selection_longest_prefix (w : String) (routes : List Route) (r : Route)
    (h : findBestRoute w routes = some r) :
    ∃ pl, routeMatches w r = some pl ∧
      (∀ r' ∈ routes, ∀ pl', routeMatches w r' = some pl' → pl' ≤ pl) ∧
      (∃ pre post, routes = pre ++ r :: post ∧
        ∀ r' ∈ pre, ∀ pl', routeMatches w r' = some pl' → pl' < pl) ∧
      (∀ f : Route → Nat,
        findBestRoute w (routes.map fun x => { x with metric := f x }) =
          some { r with metric := f r }) := by
  unfold findBestRoute at h
  cases hb : bestRouteAux w routes none with
  | none => rw [hb] at h; cases h
  | some b =>
    obtain ⟨rb, pl⟩ := b
    rw [hb] at h
    simp only [Option.map_some'] at h
    injection h with h
    subst h
    rcases bestRouteAux_first w routes none _ _ hb with hl | ⟨pre, post, hsplit, hrm, -, hpre⟩
    · cases hl
    obtain ⟨-, hmax⟩ := bestRouteAux_bound w routes none _ _ hb
    refine ⟨pl, hrm, hmax, ⟨pre, post, hsplit, hpre⟩, ?_⟩
    intro f
    have hc := bestRouteAux_metric w f routes none
    simp only [Option.map_none'] at hc
    unfold findBestRoute
    rw [hc, hb]
    rfl

/-- C4 witness: between a `/8` route with the better metric and a `/24`
route with the worse one, the `/24` route is selected for
`10.0.0.7`, and the theorem yields that it matches. -/
theorem C4_witness : (routeMatches "10.0.0.7" exampleRouteSpecific).isSome = true := by
  obtain ⟨pl, hm, -, -, -⟩ :=
    C4_route_selection_longest_prefix "10.0.0.7" [exampleRouteCoarse, exampleRouteSpecific]
      exampleRouteSpecific (by decide)
  rw [hm]
  rfl

/-! ## Well-formedness of parsed networks and the proper-subnet
characterization -/

/-- A parsed octet is at most 255. -/
lemma parseOctet_le {l : List Char} {v : Nat} (h : parseOctet l = some v) : v ≤ 255 := by
  unfold parseOctet at h
  split at h
  · dsimp only at h
    split at h
    · injection h with h
      omega
    · cases h
  · cases h

/-- A parsed IPv4 address fits in 32 bits. -/
lemma parseIPv4_lt {l : List Char} {v : Nat} (h : parseIPv4 l = some v) : v < 2 ^ 32 := by
  unfold parseIPv4 at h
  split at h
  case h_2 => cases h
  case h_1 a b c d =>
    simp only [bind, Option.bind_eq_some, pure, Option.some.injEq] at h
    obtain ⟨va, ha, vb, hb, vc, hc, vd, hd, hv⟩ := h
    have := parseOctet_le ha
    have := parseOctet_le hb
    have := parseOctet_le hc
    have := parseOctet_le hd
    omega

/-- The network produced by `parseNet` is well-formed. -/
lemma parseNet_wf {l : List Char} {n : Net} (h : parseNet l = some n) : n.WF := by
  unfold parseNet at h
  split at h
  case h_3 => cases h
  case h_1 a =>
    simp only [Option.map_eq_some'] at h
    obtain ⟨v, hv, rfl⟩ := h
    have := parseIPv4_lt hv
    refine ⟨le_rfl, ?_, ?_⟩ <;> simp <;> omega
  case h_2 a pl =>
    simp only [bind, Option.bind_eq_some, pure, Option.some.injEq] at h
    obtain ⟨v, hv, p, hp, hn⟩ := h
    have hvlt := parseIPv4_lt hv
    have hple : p ≤ 32 := by
      unfold parsePrefixLen at hp
      split at hp
      · injection hp with hp
        omega
      · cases hp
    subst hn
    refine ⟨hple, Nat.mul_mod_left _ _, ?_⟩
    show v / 2 ^ (32 - p) * 2 ^ (32 - p) + 2 ^ (32 - p) ≤ 2 ^ 32
    have hpow : (0:Nat) < 2 ^ (32 - p) := Nat.pos_pow_of_pos _ (by norm_num)
    have hdiv : v / 2 ^ (32 - p) < 2 ^ p := by
      rw [Nat.div_lt_iff_lt_mul hpow]
      calc v < 2 ^ 32 := hvlt
        _ = 2 ^ p * 2 ^ (32 - p) := by
          rw [← pow_add]
          congr 1
          omega
    calc v / 2 ^ (32 - p) * 2 ^ (32 - p) + 2 ^ (32 - p)
        = (v / 2 ^ (32 - p) + 1) * 2 ^ (32 - p) := by ring
      _ ≤ 2 ^ p * 2 ^ (32 - p) := Nat.mul_le_mul_right _ (by omega)
      _ = 2 ^ 32 := by
          rw [← pow_add]
          congr 1
          omega

/-- For well-formed networks, the code's proper-subnet test
(`supernet_of` from Python interval containment, plus inequality)
coincides with the spec's arithmetic characterization: a strictly
longer prefix whose base lies inside the supernet (spec section 4.1). -/
lemma proper_subnet_iff {x Q : Net} (hx : x.WF) (hQ : Q.WF) :
    (Q.supernetOf x = true ∧ Q ≠ x) ↔ (Q.plen < x.plen ∧ Q.containsIP x.base = true) := by
  obtain ⟨hxp, hxm, hxb⟩ := hx
  obtain ⟨hQp, hQm, hQb⟩ := hQ
  have hsx : (0:Nat) < 2 ^ (32 - x.plen) := Nat.pos_pow_of_pos _ (by norm_num)
  have hsQ : (0:Nat) < 2 ^ (32 - Q.plen) := Nat.pos_pow_of_pos _ (by norm_num)
  simp only [Net.supernetOf, Net.subnetOf, Net.containsIP, Net.broadcast,
    Bool.and_eq_true, decide_eq_true_eq]
  constructor
  · rintro ⟨⟨h1, h2⟩, hne⟩
    have hlt : Q.plen < x.plen := by
      by_contra hge
      push_neg at hge
      have hsle : 2 ^ (32 - Q.plen) ≤ 2 ^ (32 - x.plen) :=
        Nat.pow_le_pow_right (by norm_num) (by omega)
      have hbase : x.base = Q.base := by omega
      have hsz : 2 ^ (32 - x.plen) = 2 ^ (32 - Q.plen) := by omega
      have hplen : x.plen = Q.plen := by
        have := Nat.pow_right_injective (le_refl 2) hsz
        omega
      exact hne (by cases x; cases Q; simp_all)
    exact ⟨hlt, h1, by omega⟩
  · rintro ⟨hlt, h1, h2⟩
    have hdvd : 2 ^ (32 - x.plen) ∣ 2 ^ (32 - Q.plen) :=
      pow_dvd_pow 2 (by omega)
    have hdvdx : 2 ^ (32 - x.plen) ∣ x.base := Nat.dvd_of_mod_eq_zero hxm
    have hdvdQ : 2 ^ (32 - x.plen) ∣ Q.base :=
      dvd_trans hdvd (Nat.dvd_of_mod_eq_zero hQm)
    have hdvdt : 2 ^ (32 - x.plen) ∣ (x.base - Q.base) := Nat.dvd_sub' hdvdx hdvdQ
    obtain ⟨a, ha⟩ := hdvdt
    obtain ⟨m, hm⟩ := hdvd
    have htlt : x.base - Q.base < 2 ^ (32 - Q.plen) := by omega
    have haltm : a < m := by
      rw [ha] at htlt
      rw [hm] at htlt
      exact lt_of_mul_lt_mul_left htlt (le_of_lt hsx)
    have hstep : (x.base - Q.base) + 2 ^ (32 - x.plen) ≤ 2 ^ (32 - Q.plen) := by
      rw [ha, hm]
      calc 2 ^ (32 - x.plen) * a + 2 ^ (32 - x.plen)
          = 2 ^ (32 - x.plen) * (a + 1) := by ring
        _ ≤ 2 ^ (32 - x.plen) * m := Nat.mul_le_mul_left _ (by omega)
    refine ⟨⟨by omega, by omega⟩, ?_⟩
    intro heq
    rw [heq] at hlt
    exact lt_irrefl _ hlt

/-- C6: for a query without a slash, `check_supernet_conflicts` returns
the empty list; for a well-formed CIDR query it returns exactly one
conflict entry per up-interface whose well-formed network is a proper
subnet of the query (strictly longer prefix, base contained in the
query — the spec's arithmetic notion of proper subnet), annotated with
the owning device and interface name, followed by one entry per route
of any device whose well-formed destination network is a proper subnet,
annotated with device and route type. -/
theorem C6_supernet_conflicts (s : Store) (q : String) :
    (hasSlash q = false → checkSupernetConflicts s q = .ok []) ∧
    (∀ Q, hasSlash q = true → parseCIDR q = some Q →
      checkSupernetConflicts s q = .ok (
        (s.upInterfaces.filterMap fun i =>
          match parseCIDR i.network with
          | some x =>
            if Q.plen < x.plen ∧ Q.containsIP x.base then
              some ⟨s.deviceName i.deviceId, some i.name, none, i.network⟩
            else none
          | none => none) ++
        (s.routes.filterMap fun r =>
          match parseCIDR r.destination_network with
          | some x =>
            if Q.plen < x.plen ∧ Q.containsIP x.base then
              some ⟨s.deviceName r.sourceDeviceId, none, some r.rtype, r.destination_network⟩
            else none
          | none => none))) := by
  constructor
  · intro hs
    simp [checkSupernetConflicts, hs]
  · intro Q hs hQ
    have hQwf : Q.WF := parseNet_wf hQ
    simp only [checkSupernetConflicts, hs, hQ, not_true, Bool.true_eq_false,
      if_false, Except.ok.injEq]
    congr 1
    · refine List.filterMap_congr ?_
      intro i _
      cases hpi : parseCIDR i.network with
      | none => rfl
      | some x =>
        have hxwf : x.WF := parseNet_wf hpi
        have hiff := proper_subnet_iff hxwf hQwf
        exact if_congr (by simpa using hiff) rfl rfl
    · refine List.filterMap_congr ?_
      intro r _
      cases hpr : parseCIDR r.destination_network with
      | none => rfl
      | some x =>
        have hxwf : x.WF := parseNet_wf hpr
        have hiff := proper_subnet_iff hxwf hQwf
        exact if_congr (by simpa using hiff) rfl rfl

/-- C6 witness: querying the aggregate `10.0.0.0/8` against the store
holding `10.0.0.0/24` reports exactly the one interface conflict. -/
theorem C6_witness :
    checkSupernetConflicts exampleLoopStore "10.0.0.0/8" =
      .ok [⟨"r1", some "eth0", none, "10.0.0.0/24"⟩] := by
  have h := (C6_supernet_conflicts exampleLoopStore "10.0.0.0/8").2
    ⟨167772160, 8⟩ (by decide) (by decide)
  rw [h]
  decide

/-! ## Lemmas about the `get_device_networks` grouping -/

/-- Inserting into the network dict adds exactly the inserted key to
the key set. -/
lemma addToGroups_keys (gs : List (String × List IfaceRef)) (n : String) (r : IfaceRef)
    (m : String) :
    (∃ g ∈ addToGroups gs n r, g.1 = m) ↔ (∃ g ∈ gs, g.1 = m) ∨ m = n := by
  induction gs with
  | nil => simp [addToGroups, eq_comm]
  | cons kv t ih =>
    obtain ⟨k, v⟩ := kv
    by_cases hk : k = n
    · have hred : addToGroups ((k, v) :: t) n r = (k, v ++ [r]) :: t := by
        simp [addToGroups, hk]
      rw [hred]
      simp only [List.mem_cons]
      constructor
      · rintro ⟨g, hg | hg, hgm⟩
        · left; exact ⟨(k, v), Or.inl rfl, by simpa [hg] using hgm⟩
        · left; exact ⟨g, Or.inr hg, hgm⟩
      · rintro (⟨g, hg | hg, hgm⟩ | hmn)
        · exact ⟨(k, v ++ [r]), Or.inl rfl, by simpa [hg] using hgm⟩
        · exact ⟨g, Or.inr hg, hgm⟩
        · exact ⟨(k, v ++ [r]), Or.inl rfl, by simp [hk, hmn]⟩
    · have hred : addToGroups ((k, v) :: t) n r = (k, v) :: addToGroups t n r := by
        simp [addToGroups, hk]
      rw [hred]
      simp only [List.mem_cons]
      constructor
      · rintro ⟨g, hg | hg, hgm⟩
        · left; exact ⟨(k, v), Or.inl rfl, by simpa [hg] using hgm⟩
        · rcases (ih).mp ⟨g, hg, hgm⟩ with ⟨g', hg', hgm'⟩ | rfl
          · left; exact ⟨g', Or.inr hg', hgm'⟩
          · right; rfl
      · rintro (⟨g, hg | hg, hgm⟩ | rfl)
        · exact ⟨(k, v), Or.inl rfl, by simpa [hg] using hgm⟩
        · obtain ⟨g', hg', hgm'⟩ := (ih).mpr (Or.inl ⟨g, hg, hgm⟩)
          exact ⟨g', Or.inr hg', hgm'⟩
        · obtain ⟨g', hg', hgm'⟩ := (ih).mpr (Or.inr rfl)
          exact ⟨g', Or.inr hg', hgm'⟩

/-- The keys of the network dict built by the grouping fold are exactly
the networks of the grouped interfaces. -/
lemma groupByNetwork_keys_from (l : List Interface) :
    ∀ (gs : List (String × List IfaceRef)) (m : String),
    (∃ g ∈ l.foldl (fun gs i => addToGroups gs i.network i.toRef) gs, g.1 = m) ↔
      (∃ g ∈ gs, g.1 = m) ∨ ∃ i ∈ l, i.network = m := by
  induction l with
  | nil => intro gs m; simp
  | cons i rest ih =>
    intro gs m
    simp only [List.foldl_cons]
    rw [ih]
    rw [addToGroups_keys]
    simp only [List.mem_cons]
    constructor
    · rintro ((h | rfl) | ⟨i', hi', hm⟩)
      · exact Or.inl h
      · exact Or.inr ⟨i, Or.inl rfl, rfl⟩
      · exact Or.inr ⟨i', Or.inr hi', hm⟩
    · rintro (h | ⟨i', rfl | hi', hm⟩)
      · exact Or.inl (Or.inl h)
      · exact Or.inl (Or.inr hm.symm)
      · exact Or.inr ⟨i', hi', hm⟩

/-- Key membership in `groupByNetwork`. -/
lemma groupByNetwork_keys (l : List Interface) (m : String) :
    (∃ g ∈ groupByNetwork l, g.1 = m) ↔ ∃ i ∈ l, i.network = m := by
  rw [groupByNetwork, groupByNetwork_keys_from]
  simp

/-- C9: with `include_stub_networks = false`, `get_device_networks`
returns exactly the networks carried by some up-interface of the given
device that also appear, as the same CIDR string, on an up-interface of
a different device; an unknown device id raises `ValidationError`. -/
theorem C9_device_networks (s : Store) (deviceId : Nat) :
    (s.devices.find? (fun d => d.id = deviceId) = none →
      ∃ msg, getDeviceNetworks s deviceId false = .error (.validation msg)) ∧
    (∀ d, s.devices.find? (fun d => d.id = deviceId) = some d →
      ∀ l, getDeviceNetworks s deviceId false = .ok l →
        ∀ n, (∃ g ∈ l, g.1 = n) ↔
          ((∃ i ∈ s.interfaces, i.deviceId = deviceId ∧ i.status = "up" ∧ i.network = n) ∧
           (∃ j ∈ s.interfaces, j.deviceId ≠ deviceId ∧ j.status = "up" ∧ j.network = n))) := by
  constructor
  · intro hfind
    unfold getDeviceNetworks
    rw [hfind]
    exact ⟨_, rfl⟩
  · intro d hfind l hok n
    unfold getDeviceNetworks at hok
    rw [hfind] at hok
    simp only [Bool.false_eq_true, if_false, Except.ok.injEq] at hok
    subst hok
    constructor
    · rintro ⟨g, hg, rfl⟩
      rw [List.mem_filter] at hg
      obtain ⟨hgnet, hgothers⟩ := hg
      constructor
      · have hkey := (groupByNetwork_keys _ g.1).mp ⟨g, hgnet, rfl⟩
        obtain ⟨i, hi, hinet⟩ := hkey
        rw [List.mem_filter] at hi
        obtain ⟨hi, hcond⟩ := hi
        simp only [decide_eq_true_eq] at hcond
        exact ⟨i, hi, hcond.1, hcond.2, hinet⟩
      · rw [List.any_eq_true] at hgothers
        obtain ⟨j, hj, hjnet⟩ := hgothers
        rw [List.mem_filter] at hj
        obtain ⟨hj, hcond⟩ := hj
        simp only [decide_eq_true_eq] at hcond hjnet
        exact ⟨j, hj, hcond.2, hcond.1, hjnet⟩
    · rintro ⟨⟨i, hi, hidev, hiup, hinet⟩, ⟨j, hj, hjdev, hjup, hjnet⟩⟩
      have hkey : ∃ g ∈ groupByNetwork
          (s.interfaces.filter (fun i => i.deviceId = deviceId ∧ i.status = "up")), g.1 = n := by
        rw [groupByNetwork_keys]
        refine ⟨i, ?_, hinet⟩
        rw [List.mem_filter]
        exact ⟨hi, by simp [hidev, hiup]⟩
      obtain ⟨g, hg, hgn⟩ := hkey
      refine ⟨g, ?_, hgn⟩
      rw [List.mem_filter]
      refine ⟨hg, ?_⟩
      rw [List.any_eq_true]
      refine ⟨j, ?_, by simp [hjnet, hgn]⟩
      rw [List.mem_filter]
      exact ⟨hj, by simp [hjup, hjdev]⟩

/-- C9 witness: on the two-hop store, device 2's non-stub networks are
exactly the shared `10.0.0.0/24`; both sides of the characterization
hold there. -/
theorem C9_witness :
    (∃ i ∈ exampleTwoHopStore.interfaces,
        i.deviceId = 2 ∧ i.status = "up" ∧ i.network = "10.0.0.0/24") ∧
    (∃ j ∈ exampleTwoHopStore.interfaces,
        j.deviceId ≠ 2 ∧ j.status = "up" ∧ j.network = "10.0.0.0/24") := by
  refine ((C9_device_networks exampleTwoHopStore 2).2 ⟨2, "r2"⟩ (by decide)
    [("10.0.0.0/24", [⟨2, "eth0", "10.0.0.2"⟩])] (by decide) "10.0.0.0/24").mp ?_
  exact ⟨("10.0.0.0/24", [⟨2, "eth0", "10.0.0.2"⟩]), by decide, rfl⟩

/-! ## The phases of `find_route_path` -/

/-- C7: when both supernet-conflict checks pass and the first matching
up-interfaces of source and destination share a device,
`find_route_path` succeeds with the single same-device path entry: that
device, no ingress, no egress, no next hop, and the same-device
note. -/
theorem C7_same_device_short_circuit (s : Store) (src dst : String)
    (sA dA : MatchEntry) (sRest dRest : List MatchEntry)
    (h1 : checkSupernetConflicts s src = .ok [])
    (h2 : checkSupernetConflicts s dst = .ok [])
    (h3 : findMatchingNetworks s src = .ok (sA :: sRest))
    (h4 : findMatchingNetworks s dst = .ok (dA :: dRest))
    (h5 : sA.deviceId = dA.deviceId) :
    findRoutePath s src dst = .ok
      ⟨"success", none, src, dst,
        [⟨sA.device, sA.deviceId, none, none, none, none,
          some "Source and destination are on the same device", none⟩],
        false, false, none, none, none⟩ := by
  unfold findRoutePath
  rw [h1, h2, h3, h4]
  simp [h5]

/-- C7 witness: two addresses of `10.0.0.0/24` on the loop store meet
on device `r1`. -/
theorem C7_witness :
    findRoutePath exampleLoopStore "10.0.0.5" "10.0.0.9" = .ok
      ⟨"success", none, "10.0.0.5", "10.0.0.9",
        [⟨"r1", 1, none, none, none, none,
          some "Source and destination are on the same device", none⟩],
        false, false, none, none, none⟩ := by
  exact C7_same_device_short_circuit exampleLoopStore "10.0.0.5" "10.0.0.9"
    ⟨1, "r1", 1, "eth0", "10.0.0.1", "10.0.0.0/24", "contains_ip"⟩
    ⟨1, "r1", 1, "eth0", "10.0.0.1", "10.0.0.0/24", "contains_ip"⟩ [] []
    (by decide) (by decide) (by decide) (by decide) rfl

/-- The termination phase never touches the NAT bookkeeping or the
source/destination echoes of the result. -/
lemma finishLoop_preserves {s : Store} {dest curr : Nat} {visited : List Nat}
    {res r : RouteResult} (h : finishLoop s dest curr visited res = .ok r) :
    r.natSource = res.natSource ∧ r.natDest = res.natDest ∧
    r.natSourceDetails = res.natSourceDetails ∧ r.natDestDetails = res.natDestDetails ∧
    r.source = res.source ∧ r.destination = res.destination := by
  unfold finishLoop at h
  split at h
  · split at h
    · cases h
    · injection h with h
      subst h
      exact ⟨rfl, rfl, rfl, rfl, rfl, rfl⟩
  · split at h <;>
    · injection h with h
      subst h
      exact ⟨rfl, rfl, rfl, rfl, rfl, rfl⟩

/-- A successful run of the hop loop never touches the NAT bookkeeping
or the source/destination echoes of the result.  (The in-loop error
returns do drop them — they are fresh dicts in the code — but those
all carry `status = "error"`.) -/
lemma hopLoop_preserves {s : Store} {dest : Nat} :
    ∀ (fuel : Nat) {curr : Nat} {visited : List Nat} {wdst : String}
      {res r : RouteResult},
    hopLoop s dest fuel curr visited wdst res = .ok r →
    r.status = "success" →
    r.natSource = res.natSource ∧ r.natDest = res.natDest ∧
    r.natSourceDetails = res.natSourceDetails ∧ r.natDestDetails = res.natDestDetails ∧
    r.source = res.source ∧ r.destination = res.destination := by
  intro fuel
  induction fuel with
  | zero =>
    intro curr visited wdst res r h hst
    unfold hopLoop at h
    injection h with h
    subst h
    simp at hst
  | succ fuel ih =>
    intro curr visited wdst res r h hst
    unfold hopLoop at h
    split at h
    · exact finishLoop_preserves h
    · try dsimp only at h
      repeat' split at h
      all_goals first
        | (injection h with h; subst h; simp at hst)
        | (have hp := finishLoop_preserves h; exact hp)
        | (have hp := ih h hst; exact hp)

/-- C5: past the validation phases with distinct source and destination
devices, `find_route_path` runs the hop simulation from the device of
the first source match, with the working destination rewritten to the
destination-NAT `translated` value when present, else to its `real`
value, and unchanged when no destination NAT matches; the source NAT
lookup only sets the flag and records details — the source device and
the recorded source string are taken from the original source, never
rewritten.  The flags survive into any successful result; the
simulation's own error returns are fresh dicts without the NAT
bookkeeping, mirroring the code. -/
theorem C5_nat_rewrites_destination_only (s : Store) (src dst : String)
    (sA dA : MatchEntry) (sRest dRest : List MatchEntry)
    (h1 : checkSupernetConflicts s src = .ok [])
    (h2 : checkSupernetConflicts s dst = .ok [])
    (h3 : findMatchingNetworks s src = .ok (sA :: sRest))
    (h4 : findMatchingNetworks s dst = .ok (dA :: dRest))
    (h5 : sA.deviceId ≠ dA.deviceId) :
    ∃ base wdst,
      findRoutePath s src dst =
        hopLoop s dA.deviceId (s.interfaces.length + 2) sA.deviceId [] wdst base ∧
      base.natSource = (findNatMapping s sA.deviceId src "source").isSome ∧
      base.natSourceDetails = findNatMapping s sA.deviceId src "source" ∧
      base.natDest = (findNatMapping s dA.deviceId dst "destination").isSome ∧
      base.natDestDetails = findNatMapping s dA.deviceId dst "destination" ∧
      base.source = src ∧ base.destination = dst ∧ base.path = [] ∧
      wdst = (match findNatMapping s dA.deviceId dst "destination" with
              | some n =>
                match n.translated with
                | some v => renderAddr v
                | none => n.real
              | none => dst) ∧
      (∀ r, findRoutePath s src dst = .ok r → r.status = "success" →
        r.natSource = (findNatMapping s sA.deviceId src "source").isSome ∧
        r.natDest = (findNatMapping s dA.deviceId dst "destination").isSome) := by
  unfold findRoutePath
  rw [h1, h2, h3, h4]
  simp only [ne_eq, not_true_eq_false, if_neg, if_false, reduceCtorEq, not_false_eq_true]
  rw [if_neg h5]
  refine ⟨_, _, rfl, ?_, ?_, ?_, ?_, ?_, ?_, ?_, ?_, ?_⟩
  all_goals cases hsn : findNatMapping s sA.deviceId src "source" <;>
    cases hdn : findNatMapping s dA.deviceId dst "destination" <;>
    simp only [hsn, hdn] <;> try rfl
  all_goals
    intro r hr hrs
    try simp only [hsn, hdn] at hr
    have hp := hopLoop_preserves _ hr hrs
    simp only [hp.1, hp.2.1, hsn, hdn]
    exact ⟨rfl, rfl⟩

/-- C5 witness: on the NAT store, the destination NAT for `200.1.1.1`
rewrites the working destination to `172.16.0.10`, the destination flag
is set, and the source flag is not. -/
theorem C5_witness :
    ∃ base wdst,
      findRoutePath exampleNatPathStore "10.0.0.5" "200.1.1.1" =
        hopLoop exampleNatPathStore 2 (exampleNatPathStore.interfaces.length + 2) 1 [] wdst base ∧
      base.natDest = true ∧ base.natSource = false ∧ wdst = "172.16.0.10" := by
  obtain ⟨base, wdst, heq, hns, hnsd, hnd, hndd, hsrc, hdst, hpath, hwdst, hflags⟩ :=
    C5_nat_rewrites_destination_only exampleNatPathStore "10.0.0.5" "200.1.1.1"
      ⟨1, "r1", 1, "eth0", "10.0.0.1", "10.0.0.0/24", "contains_ip"⟩
      ⟨4, "r2", 2, "eth2", "200.1.1.1", "200.1.1.0/24", "exact_ip_match"⟩
      [⟨2, "r2", 2, "eth0", "10.0.0.2", "10.0.0.0/24", "contains_ip"⟩] []
      (by decide) (by decide) (by decide) (by decide) (by decide)
  refine ⟨base, wdst, heq, ?_, ?_, ?_⟩
  · rw [hnd]; rfl
  · rw [hns]; rfl
  · rw [hwdst]; rfl

/-! ## No device is visited twice on a successful path -/

/-- Attaching an ingress record does not change the devices of a path. -/
lemma attachIngress_deviceIds (p : List Hop) (ing : IfaceRef) :
    (attachIngress p ing).map Hop.deviceId = p.map Hop.deviceId := by
  induction p with
  | nil => rfl
  | cons h t ih =>
    cases t with
    | nil => rfl
    | cons h2 t2 =>
      show Hop.deviceId h :: (attachIngress (h2 :: t2) ing).map Hop.deviceId = _
      rw [ih]
      rfl

/-- If the termination phase succeeds starting from a path whose
devices are distinct, all recorded in `visited`, with the destination
not yet visited, the final path's devices are distinct. -/
lemma finishLoop_nodup {s : Store} {dest curr : Nat} {visited : List Nat}
    {res r : RouteResult} (h : finishLoop s dest curr visited res = .ok r)
    (hst : r.status = "success")
    (hnd : (res.path.map Hop.deviceId).Nodup)
    (hsub : ∀ id ∈ res.path.map Hop.deviceId, id ∈ visited)
    (hdv : dest ∉ visited) :
    (r.path.map Hop.deviceId).Nodup := by
  unfold finishLoop at h
  split at h
  case isTrue hc =>
    split at h
    · cases h
    · injection h with h
      subst h
      simp only [List.map_append, List.map_cons, List.map_nil]
      refine List.Nodup.append hnd (List.nodup_singleton _) ?_
      intro a ha hb
      rw [List.mem_singleton] at hb
      subst hb
      subst hc
      exact hdv (hsub _ ha)
  case isFalse hc =>
    split at h
    · injection h with h
      subst h
      simp at hst
    · injection h with h
      subst h
      exact hnd

/-- If the hop loop succeeds from a state whose accumulated path has
distinct devices, all already in `visited`, with the destination device
unvisited, the resulting path's devices are distinct. -/
lemma hopLoop_nodup {s : Store} {dest : Nat} :
    ∀ (fuel : Nat) {curr : Nat} {visited : List Nat} {wdst : String}
      {res r : RouteResult},
    hopLoop s dest fuel curr visited wdst res = .ok r →
    r.status = "success" →
    (res.path.map Hop.deviceId).Nodup →
    (∀ id ∈ res.path.map Hop.deviceId, id ∈ visited) →
    dest ∉ visited →
    (r.path.map Hop.deviceId).Nodup := by
  intro fuel
  induction fuel with
  | zero =>
    intro curr visited wdst res r h hst hnd hsub hdv
    unfold hopLoop at h
    injection h with h
    subst h
    simp at hst
  | succ fuel ih =>
    intro curr visited wdst res r h hst hnd hsub hdv
    unfold hopLoop at h
    split at h
    case isTrue hc => exact finishLoop_nodup h hst hnd hsub hdv
    case isFalse hc =>
      push_neg at hc
      try dsimp only at h
      repeat' split at h
      all_goals first
        | (injection h with h; subst h; exact absurd hst (by simp))
        | (refine finishLoop_nodup h hst ?_ ?_ ?_ <;>
            first
            | (simp only [attachIngress_deviceIds, List.map_append, List.map_cons, List.map_nil]
               refine List.Nodup.append hnd (List.nodup_singleton _) ?_
               intro a ha hb
               rw [List.mem_singleton] at hb
               subst hb
               exact hc.2 (hsub _ ha))
            | (intro a ha
               simp only [attachIngress_deviceIds, List.map_append, List.map_cons,
                 List.map_nil, List.mem_append, List.mem_singleton] at ha
               rcases ha with ha | rfl
               · exact List.mem_cons_of_mem _ (hsub _ ha)
               · exact List.mem_cons_self _ _)
            | (intro hmem
               rcases List.mem_cons.mp hmem with h' | h'
               · exact hc.1 h'.symm
               · exact hdv h'))
        | (refine ih h hst ?_ ?_ ?_ <;>
            first
            | (simp only [attachIngress_deviceIds, List.map_append, List.map_cons, List.map_nil]
               refine List.Nodup.append hnd (List.nodup_singleton _) ?_
               intro a ha hb
               rw [List.mem_singleton] at hb
               subst hb
               exact hc.2 (hsub _ ha))
            | (intro a ha
               simp only [attachIngress_deviceIds, List.map_append, List.map_cons,
                 List.map_nil, List.mem_append, List.mem_singleton] at ha
               rcases ha with ha | rfl
               · exact List.mem_cons_of_mem _ (hsub _ ha)
               · exact List.mem_cons_self _ _)
            | (intro hmem
               rcases List.mem_cons.mp hmem with h' | h'
               · exact hc.1 h'.symm
               · exact hdv h'))

/-- C8: in every result of `find_route_path` with `status = "success"`,
no device appears in more than one entry of the returned path. -/
theorem C8_success_path_devices_distinct (s : Store) (src dst : String) (r : RouteResult)
    (h : findRoutePath s src dst = .ok r) (hst : r.status = "success") :
    (r.path.map Hop.deviceId).Nodup := by
  unfold findRoutePath at h
  try dsimp only at h
  repeat' split at h
  all_goals first
    | exact Except.noConfusion h
    | (injection h with h; subst h; exact absurd hst (by decide))
    | (injection h with h; subst h; simp)
    | (refine hopLoop_nodup _ h hst ?_ ?_ ?_ <;> (repeat' split) <;> simp)

/-- C8 witness: the successful two-hop trace `r1 → r2` has distinct
devices, via the theorem applied to the concrete store. -/
theorem C8_witness :
    (((⟨"success", none, "10.0.0.5", "172.16.0.10",
        [⟨"r1", 1, none, some ⟨1, "eth0", "10.0.0.1"⟩,
          some ⟨"172.16.0.0/24", some "10.0.0.2", "static"⟩, some "r2", none, none⟩,
         ⟨"r2", 2, none, none, none, none, some "Destination reached", none⟩],
        false, false, none, none, none⟩ : RouteResult).path.map Hop.deviceId)).Nodup :=
  C8_success_path_devices_distinct exampleTwoHopStore "10.0.0.5" "172.16.0.10" _
    (by decide) rfl

/-! ## The directly-connected terminal is reported as a routing loop -/

/-- C1 counterexample: on `exampleLoopStore` the simulation breaks on a
directly-connected route (type `connected`, no next hop) on device 1,
which is not the destination device (the destination's only matching
interface is on device 2) — and the result *is* reported as
`"Routing loop detected"`, because the current device was already added
to the visited set at the top of the iteration. -/
theorem C1_counterexample :
    (findRoutePath exampleLoopStore "10.0.0.5" "172.16.0.10").toOption.map
        (fun r => (r.status, r.message)) = some ("error", some "Routing loop detected") ∧
    findBestRoute "172.16.0.10"
        (exampleLoopStore.routes.filter (fun r => r.sourceDeviceId = 1)) =
      some ⟨1, "172.16.0.0/24", none, "connected", 0⟩ ∧
    ((findMatchingNetworks exampleLoopStore "172.16.0.10").toOption.bind List.head?).map
        MatchEntry.deviceId = some 2 := by
  decide

/-- C1 amended: `find_route_path` reports `"Routing loop detected"`
whenever the hop loop ends on a device other than the destination that
is in the visited set — which covers not only a next hop revisiting a
device, but also the break on a directly-connected chosen route (no
next hop, type `connected`) on a non-destination device, because the
current device was added to `visited` at the start of that same
iteration. -/
theorem C1_amended_direct_connect_reports_loop (s : Store) (destDevId curr : Nat)
    (visited : List Nat) (wdst : String) (res : RouteResult) (fuel : Nat) (cd : Device)
    (best : Route)
    (h1 : curr ≠ destDevId) (h2 : curr ∉ visited)
    (h3 : s.devices.find? (fun d => d.id = curr) = some cd)
    (h4 : findBestRoute wdst (s.routes.filter (fun r => r.sourceDeviceId = curr)) = some best)
    (h5 : (match best.gateway_ip with
           | none => none
           | some gw => findNextHop s gw) = (none : Option Interface))
    (h6 : best.rtype = "connected") :
    (hopLoop s destDevId (fuel + 1) curr visited wdst res).toOption.map
        (fun r => (r.status, r.message)) =
      some ("error", some "Routing loop detected") := by
  unfold hopLoop
  rw [if_neg (by simp [h1, h2])]
  simp only [h3, h4, h5, h6]
  rw [if_neg (by simp)]
  unfold finishLoop
  rw [if_neg h1]
  rw [if_pos (List.mem_cons_self curr visited)]
  rfl

/-- C1 amended witness: one concrete directly-connected break yields
the loop report. -/
theorem C1_amended_witness :
    (hopLoop exampleLoopStore 2 1 1 [] "172.16.0.10"
        ⟨"success", none, "10.0.0.5", "172.16.0.10", [], false, false, none, none, none⟩).toOption.map
        (fun r => (r.status, r.message)) =
      some ("error", some "Routing loop detected") :=
  C1_amended_direct_connect_reports_loop exampleLoopStore 2 1 [] "172.16.0.10"
    ⟨"success", none, "10.0.0.5", "172.16.0.10", [], false, false, none, none, none⟩ 0
    ⟨1, "r1"⟩ ⟨1, "172.16.0.0/24", none, "connected", 0⟩
    (by decide) (by decide) (by decide) (by decide) rfl rfl

/-! ## The final hop's ingress is always absent -/

/-- Attaching an ingress record touches only the `next_hop_ingress`
key, never `ingress_interface`. -/
lemma attachIngress_ingress {p : List Hop} {ing : IfaceRef}
    (h : ∀ hp ∈ p, hp.ingress = none) : ∀ hp ∈ attachIngress p ing, hp.ingress = none := by
  induction p with
  | nil => intro hp hmem; cases hmem
  | cons h0 t ih =>
    cases t with
    | nil =>
      intro hp hmem
      rcases List.mem_singleton.mp hmem with rfl
      exact h h0 (List.mem_singleton.mpr rfl)
    | cons h2 t2 =>
      intro hp hmem
      rcases List.mem_cons.mp hmem with rfl | hmem2
      · exact h hp (List.mem_cons_self _ _)
      · exact ih (fun q hq => h q (List.mem_cons_of_mem _ hq)) hp hmem2

/-- If the termination phase succeeds and the hop entering the
destination carries no `next_hop_ingress`, every `ingress_interface` in
the final path (the `"Destination reached"` entry included) is
absent. -/
lemma finishLoop_ingress {s : Store} {dest curr : Nat} {visited : List Nat}
    {res r : RouteResult} (h : finishLoop s dest curr visited res = .ok r)
    (hst : r.status = "success")
    (hall : ∀ hp ∈ res.path, hp.ingress = none)
    (hlast : curr = dest → (res.path.getLast?).bind Hop.nextHopIngress = none) :
    ∀ hp ∈ r.path, hp.ingress = none := by
  unfold finishLoop at h
  split at h
  case isTrue hc =>
    split at h
    · cases h
    · injection h with h
      subst h
      intro hp hmem
      rcases List.mem_append.mp hmem with hmem | hmem
      · exact hall hp hmem
      · rcases List.mem_singleton.mp hmem with rfl
        exact hlast hc
  case isFalse hc =>
    split at h
    · injection h with h
      subst h
      simp at hst
    · injection h with h
      subst h
      exact hall

/-- If the hop loop succeeds from a state whose accumulated hops carry
no ingress, every hop of the result — the final one included — carries
no ingress. -/
lemma hopLoop_ingress {s : Store} {dest : Nat} :
    ∀ (fuel : Nat) {curr : Nat} {visited : List Nat} {wdst : String}
      {res r : RouteResult},
    hopLoop s dest fuel curr visited wdst res = .ok r →
    r.status = "success" →
    (∀ hp ∈ res.path, hp.ingress = none) →
    (curr = dest → (res.path.getLast?).bind Hop.nextHopIngress = none) →
    ∀ hp ∈ r.path, hp.ingress = none := by
  intro fuel
  induction fuel with
  | zero =>
    intro curr visited wdst res r h hst hall hlast
    unfold hopLoop at h
    injection h with h
    subst h
    simp at hst
  | succ fuel ih =>
    intro curr visited wdst res r h hst hall hlast
    unfold hopLoop at h
    split at h
    case isTrue hc => exact finishLoop_ingress h hst hall hlast
    case isFalse hc =>
      push_neg at hc
      try dsimp only at h
      repeat' split at h
      all_goals first
        | (injection h with h; subst h; simp at hst)
        | (refine finishLoop_ingress h hst ?_ ?_ <;>
            first
            | (intro hp hmem
               rcases List.mem_append.mp hmem with hmem | hmem
               · exact hall hp hmem
               · rcases List.mem_singleton.mp hmem with rfl
                 rfl)
            | (intro hcd; exact absurd hcd hc.1))
        | (refine ih h hst ?_ ?_ <;>
            first
            | (refine attachIngress_ingress ?_
               intro hp hmem
               rcases List.mem_append.mp hmem with hmem | hmem
               · exact hall hp hmem
               · rcases List.mem_singleton.mp hmem with rfl
                 rfl)
            | (intro hp hmem
               rcases List.mem_append.mp hmem with hmem | hmem
               · exact hall hp hmem
               · rcases List.mem_singleton.mp hmem with rfl
                 rfl)
            | (intro hcd
               first
               | exact absurd hcd (by assumption)
               | (rw [List.getLast?_append_cons]; rfl)))

/-- C2 counterexample: on the two-hop store the path succeeds, the
first hop has a `next_hop` yet no `next_hop_ingress` is attached to it
(the next device is the destination), and the final
`"Destination reached"` entry carries `ingress = None` — even though
the up-interface whose address is the chosen route's gateway
(`10.0.0.2`) exists, contradicting the claimed non-None ingress. -/
theorem C2_counterexample :
    (findRoutePath exampleTwoHopStore "10.0.0.5" "172.16.0.10").toOption.map
        (fun r => (r.status, r.path.map (fun h => (h.nextHop, h.nextHopIngress, h.ingress)))) =
      some ("success",
        [(some "r2", none, none), (none, none, none)]) ∧
    findNextHop exampleTwoHopStore "10.0.0.2" =
      some ⟨2, 2, "eth0", "10.0.0.2", "10.0.0.0/24", "up"⟩ := by
  decide

/-- C2 amended: `next_hop_ingress` is attached to the last emitted hop
only when the next-hop device is not the destination device; the hop
that enters the destination therefore never carries it, and every
`ingress_interface` in a successful path — the final
`"Destination reached"` entry included — is `None`. -/
theorem C2_amended_success_ingress_none (s : Store) (src dst : String) (r : RouteResult)
    (h : findRoutePath s src dst = .ok r) (hst : r.status = "success") :
    ∀ hp ∈ r.path, hp.ingress = none := by
  unfold findRoutePath at h
  try dsimp only at h
  repeat' split at h
  all_goals first
    | exact Except.noConfusion h
    | (injection h with h; subst h; simp at hst; done)
    | (injection h with h; subst h;
       intro hp hmem
       rcases List.mem_singleton.mp hmem with rfl
       rfl)
    | (refine hopLoop_ingress _ h hst ?_ ?_ <;> (repeat' split) <;> simp)

/-- C2 amended witness: the concrete two-hop success applied through
the theorem shows the destination entry's ingress is `None`. -/
theorem C2_amended_witness :
    Hop.ingress ⟨"r2", 2, none, none, none, none, some "Destination reached", none⟩ = none :=
  C2_amended_success_ingress_none exampleTwoHopStore "10.0.0.5" "172.16.0.10"
    ⟨"success", none, "10.0.0.5", "172.16.0.10",
      [⟨"r1", 1, none, some ⟨1, "eth0", "10.0.0.1"⟩,
        some ⟨"172.16.0.0/24", some "10.0.0.2", "static"⟩, some "r2", none, none⟩,
       ⟨"r2", 2, none, none, none, none, some "Destination reached", none⟩],
      false, false, none, none, none⟩
    (by decide) rfl
    ⟨"r2", 2, none, none, none, none, some "Destination reached", none⟩
    (by simp)

/-! ## NAT translation is exact integer arithmetic, not 32-bit -/

/-- C3 counterexample: querying `255.255.255.200` against the mapping
`255.255.255.0/24 → 255.255.255.100` yields a translated value of
`4294967340`, which exceeds `0xFFFFFFFF` (so it renders as an IPv6
address), while unsigned 32-bit arithmetic would give
`(R + (P - L.base)) mod 2^32 = 44`. -/
theorem C3_counterexample :
    ((findNatMapping exampleNatOverflowStore 1 "255.255.255.200" "source").bind
        NatResult.translated) = some 4294967340 ∧
    (4294967140 + (4294967240 - 4294967040)) % 4294967296 = 44 ∧
    (4294967340 : Nat) ≠ 44 ∧ ¬(4294967340 < 4294967296) := by
  decide

/-- Helper for C3: every translated value produced while scanning a NAT
mapping list is the exact (unbounded) integer `R + (P - lb)`, where
`lb` is the literal address written before the slash of the logical
CIDR (not masked), `P` the parsed query and `R` the parsed single-IP
real side, with the query contained in the logical network. -/
lemma findNatMappingAux_translated {s : Store} {q : String} :
    ∀ (l : List NATMapping) (r : NatResult) (v : Nat),
    findNatMappingAux s q l = some r → r.translated = some v →
    ∃ P R lb L,
      parseIP q = some P ∧ parseIP r.real = some R ∧
      literalBase r.logical = some lb ∧ parseCIDR r.logical = some L ∧
      L.containsIP P = true ∧
      (v : Int) = (R : Int) + ((P : Int) - (lb : Int)) := by
  intro l
  induction l with
  | nil => intro r v h; cases h
  | cons nat rest ih =>
    intro r v h ht
    unfold findNatMappingAux at h
    cases hstep : natStep s q nat with
    | none => rw [hstep] at h; exact ih r v h ht
    | some r0 =>
      rw [hstep] at h
      injection h with h
      subst h
      unfold natStep at hstep
      split at hstep
      · split at hstep
        case h_1 => cases hstep
        case h_2 L hL =>
          split at hstep
          · split at hstep
            case h_1 => cases hstep
            case h_2 Q hQ =>
              split at hstep
              · injection hstep with hstep
                subst hstep
                cases ht
              · cases hstep
          · split at hstep
            case h_1 => cases hstep
            case h_2 P hP =>
              split at hstep
              · split at hstep
                · split at hstep
                  case h_1 lb rb hlb hrb =>
                    dsimp only at hstep
                    split at hstep
                    case isTrue hpos =>
                      injection hstep with hstep
                      subst hstep
                      simp only [Option.some.injEq] at ht
                      refine ⟨P, rb, lb, L, hP, hrb, hlb, hL, by assumption, ?_⟩
                      subst ht
                      rw [Int.toNat_of_nonneg hpos]
                    case isFalse => cases hstep
                  case h_2 => cases hstep
                · injection hstep with hstep
                  subst hstep
                  cases ht
              · cases hstep
      · split at hstep
        case h_1 => cases hstep
        case h_2 =>
          split at hstep
          · injection hstep with hstep
            subst hstep
            cases ht
          · cases hstep

/-- C3 amended: whenever `find_nat_mapping` returns a mapping with a
`translated` value, that value is the exact unbounded integer
`R + (P - lb)` where `lb` is the literal address written before the
slash of the logical CIDR; for a canonical CIDR (`lb = L.base`) this is
`R + (P - L.base)` exactly.  No reduction modulo `2^32` is applied: a
sum beyond `0xFFFFFFFF` is kept as-is (and rendered as an IPv6
address), so the mod-`2^32` congruence of the claim holds only because
the value is the exact sum, not because of any 32-bit wrap. -/
theorem C3_amended_nat_translation_exact (s : Store) (devId : Nat) (q ntype : String)
    (r : NatResult) (v : Nat)
    (h : findNatMapping s devId q ntype = some r)
    (ht : r.translated = some v) :
    ∃ P R lb L,
      parseIP q = some P ∧ parseIP r.real = some R ∧
      literalBase r.logical = some lb ∧ parseCIDR r.logical = some L ∧
      L.containsIP P = true ∧
      ((v : Int) = (R : Int) + ((P : Int) - (lb : Int))) ∧
      (lb = L.base → v + lb = R + P) ∧
      ((v : Int) % 4294967296 = ((R : Int) + ((P : Int) - (lb : Int))) % 4294967296) := by
  unfold findNatMapping at h
  obtain ⟨P, R, lb, L, h1, h2, h3, h4, h5, h6⟩ := findNatMappingAux_translated _ r v h ht
  exact ⟨P, R, lb, L, h1, h2, h3, h4, h5, h6, fun _ => by omega, by rw [h6]⟩

/-- C3 amended witness: the overflowing translation is the exact sum
`R + (P - L.base) = 4294967340`. -/
theorem C3_witness :
    ∃ P R lb L,
      parseIP "255.255.255.200" = some P ∧
      parseIP "255.255.255.100" = some R ∧
      literalBase "255.255.255.0/24" = some lb ∧
      parseCIDR "255.255.255.0/24" = some L ∧
      L.containsIP P = true ∧
      ((4294967340 : Int) = (R : Int) + ((P : Int) - (lb : Int))) := by
  obtain ⟨P, R, lb, L, h1, h2, h3, h4, h5, h6, -, -⟩ :=
    C3_amended_nat_translation_exact exampleNatOverflowStore 1 "255.255.255.200" "source"
      ⟨1, "d", "255.255.255.0/24", "255.255.255.100", "source", some 4294967340, none⟩
      4294967340 (by decide) rfl
  exact ⟨P, R, lb, L, h1, h2, h3, h4, h5, h6⟩

/-! ## Malformed inputs and `find_route_path` -/

/-- A query `find_matching_networks` accepts is well-formed. -/
lemma findMatchingNetworks_ok_wellformed {s : Store} {q : String} {l : List MatchEntry}
    (h : findMatchingNetworks s q = .ok l) : malformed q = false := by
  unfold findMatchingNetworks at h
  unfold malformed
  split at h
  case isTrue hs =>
    rw [if_pos hs]
    split at h
    · cases h
    · simp_all
  case isFalse hs =>
    rw [if_neg hs]
    split at h
    · cases h
    · simp_all

/-- A malformed query makes `find_matching_networks` raise a
`ValidationError`. -/
lemma malformed_matching {s : Store} {q : String} (h : malformed q = true) :
    ∃ msg, findMatchingNetworks s q = .error (.validation msg) := by
  unfold malformed at h
  unfold findMatchingNetworks
  split at h
  case isTrue hs =>
    rw [if_pos hs]
    cases hp : parseCIDR q with
    | none => exact ⟨_, rfl⟩
    | some Q => rw [hp] at h; cases h
  case isFalse hs =>
    rw [if_neg hs]
    cases hp : parseIP q with
    | none => exact ⟨_, rfl⟩
    | some P => rw [hp] at h; cases h

/-- A malformed query with a slash makes `check_supernet_conflicts`
raise a `ValidationError`. -/
lemma malformed_conflicts {s : Store} {q : String} (h : malformed q = true)
    (hs : hasSlash q = true) :
    ∃ msg, checkSupernetConflicts s q = .error (.validation msg) := by
  unfold malformed at h
  rw [if_pos hs] at h
  unfold checkSupernetConflicts
  rw [if_neg (by simp [hs])]
  cases hp : parseCIDR q with
  | none => exact ⟨_, rfl⟩
  | some Q => rw [hp] at h; cases h

/-- C10 counterexample: with an empty store, a well-formed but
unmatched source and a malformed destination (`"notanip"`),
`find_route_path` returns a structured `status=error` dictionary
("Source … not found") instead of raising: the malformed destination is
never parsed. -/
theorem C10_counterexample :
    malformed "notanip" = true ∧
    (findRoutePath emptyStore "1.2.3.4" "notanip").toOption.map
        (fun r => (r.status, r.message)) =
      some ("error", some "Source 1.2.3.4 not found in any known network") := by
  decide

/-- C10 amended: on a malformed source or destination,
`find_route_path` never succeeds — it either raises a `ValidationError`
or returns one of the structured errors of an earlier validation phase
(a supernet-conflict error on the string checked first, or
source-not-found).  When both conflict checks pass, a malformed source
always raises; and when additionally the source matches some network, a
malformed destination always raises. -/
theorem C10_malformed_raises_unless_earlier_error (s : Store) (src dst : String)
    (hm : malformed src = true ∨ malformed dst = true) :
    (∀ r, findRoutePath s src dst = .ok r → r.status = "error") ∧
    (checkSupernetConflicts s src = .ok [] → checkSupernetConflicts s dst = .ok [] →
      ((malformed src = true → isValidationErr (findRoutePath s src dst) = true) ∧
       (∀ m ms, findMatchingNetworks s src = .ok (m :: ms) →
         isValidationErr (findRoutePath s src dst) = true))) := by
  constructor
  · intro r hr
    unfold findRoutePath at hr
    try dsimp only at hr
    cases hcs : checkSupernetConflicts s src with
    | error e => rw [hcs] at hr; cases hr
    | ok cs =>
      rw [hcs] at hr
      try dsimp only at hr
      by_cases hcse : cs = []
      case neg =>
        rw [if_pos hcse] at hr
        injection hr with hr
        subst hr
        rfl
      case pos =>
        subst hcse
        rw [if_neg (by simp)] at hr
        cases hcd : checkSupernetConflicts s dst with
        | error e => rw [hcd] at hr; cases hr
        | ok cd =>
          rw [hcd] at hr
          try dsimp only at hr
          by_cases hcde : cd = []
          case neg =>
            rw [if_pos hcde] at hr
            injection hr with hr
            subst hr
            rfl
          case pos =>
            subst hcde
            rw [if_neg (by simp)] at hr
            cases hsm : findMatchingNetworks s src with
            | error e => rw [hsm] at hr; cases hr
            | ok sm =>
              rw [hsm] at hr
              try dsimp only at hr
              cases sm with
              | nil =>
                injection hr with hr
                subst hr
                rfl
              | cons sA sRest =>
                have hsw := findMatchingNetworks_ok_wellformed hsm
                cases hdm : findMatchingNetworks s dst with
                | error e => rw [hdm] at hr; cases hr
                | ok dm =>
                  have hdw := findMatchingNetworks_ok_wellformed hdm
                  rcases hm with hm | hm
                  · rw [hm] at hsw; cases hsw
                  · rw [hm] at hdw; cases hdw
  · intro h1 h2
    constructor
    · intro hmsrc
      obtain ⟨msg, herr⟩ := malformed_matching (s := s) hmsrc
      simp [findRoutePath, h1, h2, herr, isValidationErr]
    · intro m ms hms
      have hsw := findMatchingNetworks_ok_wellformed hms
      have hmdst : malformed dst = true := by
        rcases hm with hm | hm
        · rw [hm] at hsw; cases hsw
        · exact hm
      obtain ⟨msg, herr⟩ := malformed_matching (s := s) hmdst
      simp [findRoutePath, h1, h2, hms, herr, isValidationErr]

/-- C10 amended witness: a malformed source with both conflict checks
passing raises a `ValidationError`. -/
theorem C10_witness : isValidationErr (findRoutePath emptyStore "foo" "1.2.3.4") = true :=
  ((C10_malformed_raises_unless_earlier_error emptyStore "foo" "1.2.3.4"
      (Or.inl (by decide))).2 (by decide) (by decide)).1 (by decide)

/-! ## Adequacy of the fuel budget

The Python `while` loop terminates because every full iteration adds an
unvisited device to `visited`, and every device entered after the first
owns some interface row.  The lemmas below make the model adequate:
with the budget `findRoutePath` supplies, the result of `hopLoop` is
unchanged by any additional fuel — the simulation has converged. -/

/-- Filtering by a stronger predicate keeps at most as many elements. -/
lemma length_filter_le_of_imp {α : Type} (l : List α) (p q : α → Bool)
    (h : ∀ a ∈ l, q a = true → p a = true) :
    (l.filter q).length ≤ (l.filter p).length := by
  induction l with
  | nil => simp
  | cons a t ih =>
    have iht := ih (fun b hb => h b (List.mem_cons_of_mem _ hb))
    cases hq : q a with
    | true =>
      have hp := h a (List.mem_cons_self _ _) hq
      simp only [List.filter_cons, hq, hp, if_true, List.length_cons]
      omega
    | false =>
      cases hp : p a with
      | true =>
        simp only [List.filter_cons, hq, hp, if_true, Bool.false_eq_true, if_false,
          List.length_cons]
        omega
      | false =>
        simp only [List.filter_cons, hq, hp, Bool.false_eq_true, if_false]
        exact iht

/-- Filtering by a stronger predicate that loses a witness keeps
strictly fewer elements. -/
lemma length_filter_lt_of_witness {α : Type} (l : List α) (p q : α → Bool) (a0 : α)
    (h : ∀ a ∈ l, q a = true → p a = true) (hmem : a0 ∈ l)
    (hp0 : p a0 = true) (hq0 : q a0 = false) :
    (l.filter q).length < (l.filter p).length := by
  induction l with
  | nil => cases hmem
  | cons a t ih =>
    rcases List.mem_cons.mp hmem with rfl | hmem'
    · have hle := length_filter_le_of_imp t p q (fun b hb => h b (List.mem_cons_of_mem _ hb))
      simp only [List.filter_cons, hp0, hq0, if_true, Bool.false_eq_true, if_false,
        List.length_cons]
      omega
    · have iht := ih (fun b hb hbq => h b (List.mem_cons_of_mem _ hb) hbq) hmem'
      cases hq : q a with
      | true =>
        have hp := h a (List.mem_cons_self _ _) hq
        simp only [List.filter_cons, hq, hp, if_true, List.length_cons]
        omega
      | false =>
        cases hp : p a with
        | true =>
          simp only [List.filter_cons, hq, hp, if_true, Bool.false_eq_true, if_false,
            List.length_cons]
          omega
        | false =>
          simp only [List.filter_cons, hq, hp, Bool.false_eq_true, if_false]
          exact iht

/-- A next hop found for a gateway is one of the store's interface
rows. -/
lemma findNextHop_mem_interfaces {s : Store} {gw : String} {i : Interface}
    (h : findNextHop s gw = some i) : i ∈ s.interfaces := by
  unfold findNextHop at h
  have hmem : i ∈ s.interfaces.filter (fun j => j.ip_address = gw ∧ j.status = "up") := by
    cases hfl : s.interfaces.filter (fun j => j.ip_address = gw ∧ j.status = "up") with
    | nil => rw [hfl] at h; cases h
    | cons a t =>
      rw [hfl] at h
      injection h with h
      subst h
      exact List.mem_cons_self _ _
  exact (List.mem_filter.mp hmem).1

/-- One step of fuel stability: under the budget hypothesis — the loop
is about to exit with at least one unit of fuel, or the current device
owns an interface and is unvisited with fuel beyond the count of
interface rows on unvisited devices, or fuel exceeds that count by
two — one more unit of fuel does not change the result. -/
lemma hopLoop_enough_fuel {s : Store} {dest : Nat} :
    ∀ (fuel : Nat) (curr : Nat) (visited : List Nat) (wdst : String) (res : RouteResult),
    (((curr = dest ∨ curr ∈ visited) ∧ 1 ≤ fuel) ∨
     (curr ∈ s.interfaces.map Interface.deviceId ∧ curr ∉ visited ∧
       (s.interfaces.filter (fun i => i.deviceId ∉ visited)).length + 1 ≤ fuel) ∨
     (s.interfaces.filter (fun i => i.deviceId ∉ visited)).length + 2 ≤ fuel) →
    hopLoop s dest fuel curr visited wdst res =
      hopLoop s dest (fuel + 1) curr visited wdst res := by
  intro fuel
  induction fuel with
  | zero =>
    intro curr visited wdst res H
    rcases H with ⟨-, h⟩ | ⟨-, -, h⟩ | h <;> omega
  | succ fuel ih =>
    intro curr visited wdst res H
    by_cases hexit : curr = dest ∨ curr ∈ visited
    · conv_lhs => rw [hopLoop]
      conv_rhs => rw [hopLoop]
      rw [if_pos hexit, if_pos hexit]
    · have hM1 : curr ∈ s.interfaces.map Interface.deviceId → curr ∉ visited →
          1 ≤ (s.interfaces.filter (fun i => i.deviceId ∉ visited)).length := by
        intro hin hnv
        obtain ⟨i, hi, hid⟩ := List.mem_map.mp hin
        have : i ∈ s.interfaces.filter (fun i => i.deviceId ∉ visited) := by
          rw [List.mem_filter]
          exact ⟨hi, by simp [hid, hnv]⟩
        have := List.length_pos_of_mem this
        omega
      have hfuel1 : 1 ≤ fuel := by
        rcases H with ⟨hx, -⟩ | ⟨hin, hnv, hle⟩ | hle
        · exact absurd hx hexit
        · have := hM1 hin hnv; omega
        · omega
      conv_lhs => rw [hopLoop]
      conv_rhs => rw [hopLoop]
      rw [if_neg hexit, if_neg hexit]
      dsimp only
      cases hdev : s.devices.find? (fun d => d.id = curr) with
      | none => rfl
      | some cd =>
        dsimp only
        cases hbr : findBestRoute wdst (s.routes.filter (fun r => r.sourceDeviceId = curr)) with
        | none => rfl
        | some best =>
          dsimp only
          cases hgw : best.gateway_ip with
          | none => rfl
          | some gw =>
            dsimp only
            cases hnh : findNextHop s gw with
            | none => rfl
            | some nh =>
              dsimp only
              split
              · rfl
              · have hnmem : nh.deviceId ∈ s.interfaces.map Interface.deviceId :=
                  List.mem_map.mpr ⟨nh, findNextHop_mem_interfaces hnh, rfl⟩
                have hmono : (s.interfaces.filter
                      (fun i => i.deviceId ∉ curr :: visited)).length ≤
                    (s.interfaces.filter (fun i => i.deviceId ∉ visited)).length := by
                  refine length_filter_le_of_imp _ _ _ ?_
                  intro a _ hq
                  simp only [decide_eq_true_eq, List.mem_cons, not_or] at hq ⊢
                  exact hq.2
                have hstep : ∀ hin : curr ∈ s.interfaces.map Interface.deviceId,
                    curr ∉ visited →
                    (s.interfaces.filter (fun i => i.deviceId ∉ curr :: visited)).length <
                      (s.interfaces.filter (fun i => i.deviceId ∉ visited)).length := by
                  intro hin hnv
                  obtain ⟨i0, hi0, hid0⟩ := List.mem_map.mp hin
                  refine length_filter_lt_of_witness _ _ _ i0 ?_ hi0 ?_ ?_
                  · intro a _ hq
                    simp only [decide_eq_true_eq, List.mem_cons, not_or] at hq ⊢
                    exact hq.2
                  · simp [hid0, hnv]
                  · simp [hid0]
                apply ih
                by_cases hvis : nh.deviceId = dest ∨ nh.deviceId ∈ curr :: visited
                · exact Or.inl ⟨hvis, hfuel1⟩
                · push_neg at hvis
                  refine Or.inr (Or.inl ⟨hnmem, hvis.2, ?_⟩)
                  rcases H with ⟨hx, -⟩ | ⟨hin, hnv, hle⟩ | hle
                  · exact absurd hx hexit
                  · have := hstep hin hnv; omega
                  · omega

/-- Fuel stability iterated: any extra fuel beyond a sufficient budget
leaves the result unchanged. -/
lemma hopLoop_fuel_ge {s : Store} {dest : Nat}
    (fuel : Nat) (curr : Nat) (visited : List Nat) (wdst : String) (res : RouteResult)
    (H : ((curr = dest ∨ curr ∈ visited) ∧ 1 ≤ fuel) ∨
     (curr ∈ s.interfaces.map Interface.deviceId ∧ curr ∉ visited ∧
       (s.interfaces.filter (fun i => i.deviceId ∉ visited)).length + 1 ≤ fuel) ∨
     (s.interfaces.filter (fun i => i.deviceId ∉ visited)).length + 2 ≤ fuel) :
    ∀ k, hopLoop s dest (fuel + k) curr visited wdst res =
      hopLoop s dest fuel curr visited wdst res := by
  intro k
  induction k with
  | zero => rfl
  | succ k ihk =>
    have Hk : ((curr = dest ∨ curr ∈ visited) ∧ 1 ≤ fuel + k) ∨
        (curr ∈ s.interfaces.map Interface.deviceId ∧ curr ∉ visited ∧
          (s.interfaces.filter (fun i => i.deviceId ∉ visited)).length + 1 ≤ fuel + k) ∨
        (s.interfaces.filter (fun i => i.deviceId ∉ visited)).length + 2 ≤ fuel + k := by
      rcases H with ⟨hx, h⟩ | ⟨h1, h2, h3⟩ | h
      · exact Or.inl ⟨hx, by omega⟩
      · exact Or.inr (Or.inl ⟨h1, h2, by omega⟩)
      · exact Or.inr (Or.inr (by omega))
    calc hopLoop s dest (fuel + (k + 1)) curr visited wdst res
        = hopLoop s dest ((fuel + k) + 1) curr visited wdst res := by ring_nf
      _ = hopLoop s dest (fuel + k) curr visited wdst res :=
          (hopLoop_enough_fuel (fuel + k) curr visited wdst res Hk).symm
      _ = hopLoop s dest fuel curr visited wdst res := ihk

/-- The budget `findRoutePath` supplies (`s.interfaces.length + 2`,
starting from an empty visited set) lies in the stable region: the hop
simulation's answer is unchanged by any extra fuel. -/
lemma hopLoop_initial_budget_stable (s : Store) (dest curr : Nat) (wdst : String)
    (res : RouteResult) (k : Nat) :
    hopLoop s dest (s.interfaces.length + 2 + k) curr [] wdst res =
      hopLoop s dest (s.interfaces.length + 2) curr [] wdst res := by
  refine hopLoop_fuel_ge _ _ _ _ _ ?_ k
  refine Or.inr (Or.inr ?_)
  have : (s.interfaces.filter (fun i => i.deviceId ∉ ([] : List Nat))).length =
      s.interfaces.length := by
    simp
  omega

